import Mathlib

/-!
# control_empleados_cpp: the EloquentORM record mapper

A shallow embedding of `src/EloquentORM.h`.  The mapper object is a record of
its five data members; the MySQL session it talks to is a separate value that
every method takes and hands back, together with the mapper after the call and
the method's C++ return value.

* `std::string` is `String`, `std::vector<string>` is `List String`.
* `std::map<string,string>` is a lookup function `String → Option String`;
  `none` is an absent key.  The code only uses `find`, `operator[]` (read, which
  inserts an empty value under an absent key) and `operator[]` (assignment).
* The server is a deterministic oracle: its reply to a statement may depend on
  every statement sent before on the same session.
* Every statement reaches the server through `query.c_str()`, so the server receives
  the text up to the first NUL character of the `std::string`.
-/

/-! ## Strings -/

/-- The test `std::string::empty()`. -/
def empty (s : String) : Bool := decide (s = "")

/-- The conversion `std::to_string(int)`: decimal text, with a minus sign for negatives. -/
def to_string (id : Int) : String := toString id

/-- The character with code 0, which ends a C string. -/
def nul : Char := Char.ofNat 0

/-- The conversion `s.c_str()` as the callee reads it: the text of `s` up to its first
NUL character, the whole of `s` when it has none. -/
def c_str (s : String) : String := String.mk (s.data.takeWhile (fun c => c ≠ nul))

/-- The string holds no NUL character. -/
def noNul (s : String) : Prop := nul ∉ s.data

instance (s : String) : Decidable (noNul s) :=
  inferInstanceAs (Decidable (nul ∉ s.data))

/-- Unsigned 64-bit subtraction `a - b` of two `size_t` operands (both below `2 ^ 64`):
the difference when `b ≤ a`, and the wrapped-around value `a + 2 ^ 64 - b` otherwise. -/
def size_t_sub (a b : Nat) : Nat := if b ≤ a then a - b else a + 2 ^ 64 - b

/-! ## The attribute map `std::map<string, string>` -/

/-- A `std::map<string,string>`: `none` marks an absent key. -/
abbrev AttrMap := String → Option String

/-- The empty map. -/
def mapEmpty : AttrMap := fun _ => none

/-- The assignment `a[k] = v`: inserts or overwrites. -/
def mapAssign (a : AttrMap) (k v : String) : AttrMap :=
  fun x => if x = k then some v else a x

/-- The read `a[k]`: returns the value, inserting an empty string under an absent key. -/
def mapSubscript (a : AttrMap) (k : String) : AttrMap × String :=
  match a k with
  | some v => (a, v)
  | none => (mapAssign a k "", "")

/-- The value the map shows for `k`, an absent key reading as the empty string. -/
def mapGet (a : AttrMap) (k : String) : String := (a k).getD ""

/-! ## The MySQL session -/

/-- A `MYSQL_RES` result set: the column names of `mysql_fetch_fields` and the rows
`mysql_fetch_row` hands out one by one; a cell is `none` for a NULL pointer. -/
structure MYSQL_RES where
  fields : List String
  rows : List (List (Option String))

/-- What the server answers to one statement: `error` is a non-zero return of
`mysql_query`; `ok res` is a zero return, `res` being what `mysql_store_result`
then gives (`none` for a NULL pointer). -/
inductive Reply where
  | error : Reply
  | ok (res : Option MYSQL_RES) : Reply

/-- The `MYSQL` session handle: the server behind it, whose reply depends on the
statements sent before and on the statement, and the statements sent so far. -/
structure MYSQL where
  server : List String → String → Reply
  sent : List String

/-- The call `mysql_query(conn, query.c_str())`: the server receives the C string,
that is `query` up to its first NUL character; the call records that statement and
yields the reply to it. -/
def mysql_query (conn : MYSQL) (query : String) : MYSQL × Reply :=
  ({ conn with sent := conn.sent ++ [c_str query] }, conn.server conn.sent (c_str query))

/-- A non-zero return value of `mysql_query`. -/
def Reply.failed : Reply → Bool
  | Reply.error => true
  | Reply.ok _ => false

/-- What `mysql_store_result(conn)` returns right after the statement. -/
def Reply.stored : Reply → Option MYSQL_RES
  | Reply.error => none
  | Reply.ok res => res

/-! ## The mapper -/

/-- The data members of `class EloquentORM` (the session is passed separately). -/
structure EloquentORM where
  table : String
  columns : List String
  attributes : AttrMap
  condition : String
  rawQuery : String

namespace EloquentORM

/-- The private helper `execute`: `nullptr` (here `none`) when the query fails. -/
def execute (conn : MYSQL) (query : String) : MYSQL × Option MYSQL_RES :=
  let r := mysql_query conn query
  if r.2.failed then (r.1, none) else (r.1, r.2.stored)

/-- The constructor `EloquentORM(connection, tableName, cols)`. -/
def ctor (tableName : String) (cols : List String) : EloquentORM :=
  { table := tableName
    columns := cols
    attributes := cols.foldl (fun a col => mapAssign a col "") mapEmpty
    condition := ""
    rawQuery := "" }

/-- The method `set(field, value)`. -/
def set (m : EloquentORM) (field value : String) : EloquentORM :=
  let m1 := { m with attributes := mapAssign m.attributes field value }
  if field ∈ m1.columns then m1 else { m1 with columns := m1.columns ++ [field] }

/-- The method `get(field)`: the mapper after the call and the returned value. -/
def get (m : EloquentORM) (field : String) : EloquentORM × String :=
  let r := mapSubscript m.attributes field
  ({ m with attributes := r.1 }, r.2)

/-- The first loop of `create`: column `columns[i]`, then a separator while
`i < columns.size()-1`; `size` is `columns.size()` and `i` the running index. -/
def createColumns (size : Nat) : Nat → List String → String → String
  | _, [], ss => ss
  | i, col :: rest, ss =>
    let ss1 := ss ++ col
    createColumns size (i + 1) rest (if i < size_t_sub size 1 then ss1 ++ ", " else ss1)

/-- The second loop of `create`: the quoted value `attributes[columns[i]]`, then a
separator while `i < columns.size()-1`.  The read may insert into the map. -/
def createValues (size : Nat) : Nat → List String → AttrMap × String → AttrMap × String
  | _, [], st => st
  | i, col :: rest, st =>
    let r := mapSubscript st.1 col
    let ss1 := st.2 ++ "'" ++ r.2 ++ "'"
    createValues size (i + 1) rest (r.1, if i < size_t_sub size 1 then ss1 ++ ", " else ss1)

/-- The text `create` builds in its string stream. -/
def createQuery (m : EloquentORM) : String :=
  (createValues m.columns.length 0 m.columns
    (m.attributes,
      createColumns m.columns.length 0 m.columns ("INSERT INTO " ++ m.table ++ " (")
        ++ ") VALUES (")).2 ++ ")"

/-- The method `create()`: session and mapper after the call, and the returned flag. -/
def create (conn : MYSQL) (m : EloquentORM) : MYSQL × EloquentORM × Bool :=
  let ss := "INSERT INTO " ++ m.table ++ " ("
  let ss := createColumns m.columns.length 0 m.columns ss
  let ss := ss ++ ") VALUES ("
  let st := createValues m.columns.length 0 m.columns (m.attributes, ss)
  let query := st.2 ++ ")"
  let m1 := { m with attributes := st.1 }
  let r := mysql_query conn query
  if r.2.failed then (r.1, m1, false) else (r.1, m1, true)

/-- The test `attributes.find("id") == attributes.end() || attributes["id"].empty()`
shared by `save`, `update` and `remove`: the map after the test and its outcome.
The right operand is only evaluated when the key is found. -/
def idMissing (a : AttrMap) : AttrMap × Bool :=
  match a "id" with
  | none => (a, true)
  | some _ =>
    let r := mapSubscript a "id"
    (r.1, empty r.2)

/-- The loop of `update` over `columns`: skips `id`, writes a separator before
every entry but the first, then `col = 'attributes[col]'`. -/
def updateLoop : List String → AttrMap × String × Bool → AttrMap × String × Bool
  | [], st => st
  | col :: rest, (a, ss, first) =>
    if col = "id" then updateLoop rest (a, ss, first)
    else
      let ss1 := if !first then ss ++ ", " else ss
      let r := mapSubscript a col
      updateLoop rest (r.1, ss1 ++ col ++ " = '" ++ r.2 ++ "'", false)

/-- The method `update()`. -/
def update (conn : MYSQL) (m : EloquentORM) : MYSQL × EloquentORM × Bool :=
  let t := idMissing m.attributes
  if t.2 then (conn, { m with attributes := t.1 }, false)
  else
    let st := updateLoop m.columns (t.1, "UPDATE " ++ m.table ++ " SET ", true)
    let r := mapSubscript st.1 "id"
    let query := st.2.1 ++ " WHERE id = " ++ r.2
    let m1 := { m with attributes := r.1 }
    let r1 := mysql_query conn query
    if r1.2.failed then (r1.1, m1, false) else (r1.1, m1, true)

/-- The method `remove()`. -/
def remove (conn : MYSQL) (m : EloquentORM) : MYSQL × EloquentORM × Bool :=
  let t := idMissing m.attributes
  if t.2 then (conn, { m with attributes := t.1 }, false)
  else
    let r := mapSubscript t.1 "id"
    let query := "DELETE FROM " ++ m.table ++ " WHERE id = " ++ r.2
    let m1 := { m with attributes := r.1 }
    let r1 := mysql_query conn query
    if r1.2.failed then (r1.1, m1, false) else (r1.1, m1, true)

/-- The method `save()`. -/
def save (conn : MYSQL) (m : EloquentORM) : MYSQL × EloquentORM × Bool :=
  let t := idMissing m.attributes
  let m1 := { m with attributes := t.1 }
  if t.2 then create conn m1 else update conn m1

/-- The method `where(field, value)`: the receiver after the call and the returned copy. -/
def where_ (m : EloquentORM) (field value : String) : EloquentORM × EloquentORM :=
  let newORM := m
  let newCond := field ++ " LIKE '%" ++ value ++ "%'"
  if !empty newORM.condition then
    (m, { newORM with condition := newORM.condition ++ (" AND " ++ newCond) })
  else
    (m, { newORM with condition := newCond })

/-- The method `raw(query)`: the receiver after the call and the returned copy. -/
def raw (m : EloquentORM) (query : String) : EloquentORM × EloquentORM :=
  let newORM := m
  (m, { newORM with rawQuery := query })

/-- The decoding loop `record[fields[i].name] = (row[i] ? row[i] : "")` for
`i < num_fields`, walking the field array and the row in step. -/
def decodeRow (fields : List String) (row : List (Option String)) (record : AttrMap) : AttrMap :=
  (fields.zip row).foldl (fun rec p => mapAssign rec p.1 (p.2.getD "")) record

/-- The method `getAll()`. -/
def getAll (conn : MYSQL) (m : EloquentORM) : MYSQL × EloquentORM × List AttrMap :=
  let query :=
    if !empty m.rawQuery then m.rawQuery
    else
      let query := "SELECT * FROM " ++ m.table
      if !empty m.condition then query ++ (" WHERE " ++ m.condition) else query
  let e := execute conn query
  match e.2 with
  | some res => (e.1, m, res.rows.map (fun row => decodeRow res.fields row mapEmpty))
  | none => (e.1, m, [])

/-- The method `first()`. -/
def first (conn : MYSQL) (m : EloquentORM) : MYSQL × EloquentORM × AttrMap :=
  let query :=
    if !empty m.rawQuery then m.rawQuery
    else
      let query := "SELECT * FROM " ++ m.table
      if !empty m.condition then query ++ (" WHERE " ++ m.condition) else query
  let query := query ++ " LIMIT 1"
  let e := execute conn query
  match e.2 with
  | some res =>
    match res.rows with
    | row :: _ => (e.1, m, decodeRow res.fields row mapEmpty)
    | [] => (e.1, m, mapEmpty)
  | none => (e.1, m, mapEmpty)

/-- The method `find(id)`. -/
def find (conn : MYSQL) (m : EloquentORM) (id : Int) : MYSQL × EloquentORM × Bool :=
  let query := "SELECT * FROM " ++ m.table ++ " WHERE id = " ++ to_string id ++ " LIMIT 1"
  let e := execute conn query
  match e.2 with
  | some res =>
    match res.rows with
    | row :: _ => (e.1, { m with attributes := decodeRow res.fields row m.attributes }, true)
    | [] => (e.1, m, false)
  | none => (e.1, m, false)

end EloquentORM

/-! ## The statement texts as the specification writes them -/

/-- The quoted values `'a(c1)'`, ..., `'a(cn)'` of an INSERT, in column order. -/
def quotedValues (a : AttrMap) (cols : List String) : List String :=
  cols.map (fun c => "'" ++ mapGet a c ++ "'")

/-- The INSERT statement of the specification:
`INSERT INTO t (c1, ..., cn) VALUES ('a(c1)', ..., 'a(cn)')`. -/
def insertStatement (m : EloquentORM) : String :=
  "INSERT INTO " ++ m.table ++ " (" ++ ", ".intercalate m.columns ++ ") VALUES ("
    ++ ", ".intercalate (quotedValues m.attributes m.columns) ++ ")"

/-- The SET entries `c = 'a(c)'` for every column other than `id`, in column order. -/
def setEntries (a : AttrMap) (cols : List String) : List String :=
  (cols.filter (fun c => c ≠ "id")).map (fun c => c ++ " = '" ++ mapGet a c ++ "'")

/-- The UPDATE statement of the specification:
`UPDATE t SET c1 = 'a(c1)', ... WHERE id = a(id)`, the `id` column left out of the list. -/
def updateStatement (m : EloquentORM) : String :=
  "UPDATE " ++ m.table ++ " SET " ++ ", ".intercalate (setEntries m.attributes m.columns)
    ++ " WHERE id = " ++ mapGet m.attributes "id"

/-- The DELETE statement of the specification: `DELETE FROM t WHERE id = a(id)`. -/
def deleteStatement (m : EloquentORM) : String :=
  "DELETE FROM " ++ m.table ++ " WHERE id = " ++ mapGet m.attributes "id"

/-- The text of a read, as the specification describes it: the raw query when one
is set, else `SELECT * FROM t`, with ` WHERE <condition>` when a condition is set. -/
def EloquentORM.selectQuery (m : EloquentORM) : String :=
  if m.rawQuery ≠ "" then m.rawQuery
  else if m.condition ≠ "" then "SELECT * FROM " ++ m.table ++ " WHERE " ++ m.condition
  else "SELECT * FROM " ++ m.table

/-- The shape `UPDATE <table> SET <c1> = '<v1>', ... WHERE id = <id>` of the
specification: a SET list of at least one entry `<c> = '<v>'`, comma-space separated. -/
def UpdateShape (stmt table id : String) : Prop :=
  ∃ (c1 v1 : String) (more : List (String × String)),
    stmt = "UPDATE " ++ table ++ " SET "
      ++ ", ".intercalate (((c1, v1) :: more).map (fun p => p.1 ++ " = '" ++ p.2 ++ "'"))
      ++ " WHERE id = " ++ id

/-- The entries of a list after the first, each behind its separator. -/
def sepTail : List String → String
  | [] => ""
  | e :: es => ", " ++ e ++ sepTail es

/-- Column `j` is the last column of the result set carrying its name (every column
is, when the names are distinct). -/
def LastOf (fields : List String) (j : Nat) : Prop :=
  j < fields.length ∧
    ∀ j2, j < j2 → j2 < fields.length → fields.getD j2 "" ≠ fields.getD j ""

/-- The text of cell `j` of a row, a NULL cell reading as the empty string. -/
def cellText (row : List (Option String)) (j : Nat) : String := (row.getD j none).getD ""

/-- A mapping holds the decoded row: every column name is a key, mapped to the text
of the row's cell in that column (the last such column, should a name repeat), and
there is no other key. -/
def RowDecoded (fields : List String) (row : List (Option String)) (record : AttrMap) : Prop :=
  (∀ k, k ∈ fields → record k ≠ none) ∧
    (∀ j, LastOf fields j → record (fields.getD j "") = some (cellText row j)) ∧
    (∀ k, k ∉ fields → record k = none)

/-! ## Sample data -/

/-- A server that accepts every statement and returns no result set. -/
def acceptAll : List String → String → Reply := fun _ _ => Reply.ok none

/-- A server that rejects every statement. -/
def rejectAll : List String → String → Reply := fun _ _ => Reply.error

/-- A fresh session on the accepting server. -/
def conn0 : MYSQL := { server := acceptAll, sent := [] }

/-- A mapper whose only column is `id`. -/
def bare : EloquentORM := (EloquentORM.ctor "t" []).set "id" "5"

/-- A mapper with an id and two more columns. -/
def bound : EloquentORM :=
  ((EloquentORM.ctor "personas" ["id", "NOMBRE", "EDAD"]).set "id" "7").set "NOMBRE" "Ana"

/-- A result set of two rows, the second with a NULL cell. -/
def twoRows : MYSQL_RES :=
  { fields := ["id", "NOMBRE"], rows := [[some "1", some "Ana"], [some "2", none]] }

/-- A session on a server answering every statement with `twoRows`. -/
def conn1 : MYSQL := { server := fun _ _ => Reply.ok (some twoRows), sent := [] }

/-- A fresh mapper over `personas`. -/
def fresh : EloquentORM := EloquentORM.ctor "personas" ["NOMBRE", "EDAD", "GENERO"]

/-- A copy of `fresh` carrying one filter. -/
def filtered : EloquentORM := (fresh.where_ "NOMBRE" "An").2

/-- The mapper of the spec scenario: table `personas`, two fields set. -/
def personas : EloquentORM :=
  ((EloquentORM.ctor "personas" ["NOMBRE", "EDAD", "GENERO"]).set "NOMBRE" "Ana").set "EDAD" "30"


/-! ## Instance states and call sequences -/

/-- The instance has no identifying key: no `id` entry, or an empty one. -/
def EloquentORM.Unbound (m : EloquentORM) : Prop :=
  m.attributes "id" = none ∨ m.attributes "id" = some ""

/-- Every name in `columns` is a key of the attribute map. -/
def EloquentORM.AllKeys (m : EloquentORM) : Prop :=
  ∀ c, c ∈ m.columns → m.attributes c ≠ none

/-- The second mapper has the table, columns, condition and raw query of the first,
and every key of the first. -/
def EloquentORM.Grows (m m2 : EloquentORM) : Prop :=
  m2.table = m.table ∧ m2.columns = m.columns ∧ m2.condition = m.condition ∧
    m2.rawQuery = m.rawQuery ∧ ∀ k, m.attributes k ≠ none → m2.attributes k ≠ none

/-- One call of the public interface on an instance. -/
inductive Call where
  | set (field value : String) : Call
  | get (field : String) : Call
  | find (id : Int) : Call
  | save : Call
  | create : Call
  | update : Call
  | remove : Call
  | where_ (field value : String) : Call
  | raw (query : String) : Call

/-- The session and the instance in hand after one call.  After `where` and `raw`
the instance in hand is the returned copy (the receiver is left as it was, so going on
with the receiver is the same as leaving the call out). -/
def step (s : MYSQL × EloquentORM) : Call → MYSQL × EloquentORM
  | Call.set f v => (s.1, s.2.set f v)
  | Call.get f => (s.1, (s.2.get f).1)
  | Call.find id => ((EloquentORM.find s.1 s.2 id).1, (EloquentORM.find s.1 s.2 id).2.1)
  | Call.save => ((EloquentORM.save s.1 s.2).1, (EloquentORM.save s.1 s.2).2.1)
  | Call.create => ((EloquentORM.create s.1 s.2).1, (EloquentORM.create s.1 s.2).2.1)
  | Call.update => ((EloquentORM.update s.1 s.2).1, (EloquentORM.update s.1 s.2).2.1)
  | Call.remove => ((EloquentORM.remove s.1 s.2).1, (EloquentORM.remove s.1 s.2).2.1)
  | Call.where_ f v => (s.1, (s.2.where_ f v).2)
  | Call.raw q => (s.1, (s.2.raw q).2)

/-- The session and the instance in hand after a finite sequence of calls. -/
def run (s : MYSQL × EloquentORM) (calls : List Call) : MYSQL × EloquentORM :=
  calls.foldl step s

/-! ## More sample data -/

/-- A session on the server that rejects every statement. -/
def connReject : MYSQL := { server := rejectAll, sent := [] }

/-- A result set with columns and no row. -/
def noRows : MYSQL_RES := { fields := ["id", "NOMBRE"], rows := [] }

/-- A session on a server answering every statement with `noRows`. -/
def connNoRows : MYSQL := { server := fun _ _ => Reply.ok (some noRows), sent := [] }

/-- A mapper whose `NOMBRE` holds a NUL character. -/
def nulValue : EloquentORM :=
  (EloquentORM.ctor "personas" ["NOMBRE", "EDAD"]).set "NOMBRE" "A\x00B"

/-- A Bound mapper whose `NOMBRE` holds a NUL character. -/
def nulBound : EloquentORM :=
  ((EloquentORM.ctor "personas" ["id", "NOMBRE"]).set "id" "7").set "NOMBRE" "A\x00B"

/-- A mapper whose id holds a NUL character. -/
def nulId : EloquentORM := (EloquentORM.ctor "personas" ["NOMBRE"]).set "id" "7\x008"

/-- A copy of `fresh` whose filter value holds a NUL character. -/
def nulFiltered : EloquentORM := (fresh.where_ "NOMBRE" "A\x00B").2

/-- A mapper whose table name holds a NUL character. -/
def nulTable : EloquentORM := EloquentORM.ctor "per\x00sonas" ["NOMBRE"]

/-! ## Lemmas on strings and maps -/

theorem empty_iff (s : String) : empty s = true ↔ s = "" := by
  simp [empty]

theorem empty_false_iff (s : String) : empty s = false ↔ s ≠ "" := by
  simp [empty]

theorem append_ne_empty_right (a b : String) (h : b ≠ "") : a ++ b ≠ "" := by
  intro hab
  apply h
  have h1 : (a ++ b).data = [] := by rw [hab]
  rw [String.data_append] at h1
  have h2 : b.data = [] := (List.append_eq_nil.mp h1).2
  exact String.ext h2

theorem intercalate_go_append (x acc s : String) (l : List String) :
    String.intercalate.go (x ++ acc) s l = x ++ String.intercalate.go acc s l := by
  induction l generalizing acc with
  | nil => rfl
  | cons a as ih =>
    simp only [String.intercalate.go]
    rw [String.append_assoc x acc s, String.append_assoc x (acc ++ s) a, ih]

theorem intercalate_single (s a : String) : s.intercalate [a] = a := rfl

theorem intercalate_cons_cons (s a b : String) (rest : List String) :
    s.intercalate (a :: b :: rest) = a ++ s ++ s.intercalate (b :: rest) := by
  show String.intercalate.go (a ++ s ++ b) s rest = a ++ s ++ String.intercalate.go b s rest
  exact intercalate_go_append (a ++ s) b s rest

theorem mapSubscript_snd (a : AttrMap) (k : String) : (mapSubscript a k).2 = mapGet a k := by
  unfold mapSubscript mapGet
  cases h : a k <;> simp

theorem mapSubscript_get (a : AttrMap) (k x : String) :
    mapGet (mapSubscript a k).1 x = mapGet a x := by
  unfold mapSubscript mapGet
  cases h : a k with
  | some v => simp
  | none =>
    by_cases hx : x = k
    · subst hx; simp [mapAssign, h]
    · simp [mapAssign, hx]

theorem mapSubscript_present (a : AttrMap) (k : String) (h : a k ≠ none) :
    (mapSubscript a k).1 = a := by
  unfold mapSubscript
  cases h1 : a k with
  | some v => rfl
  | none => exact absurd h1 h

theorem c_str_of_noNul (s : String) (h : noNul s) : c_str s = s := by
  unfold c_str
  have h1 : s.data.takeWhile (fun c => c ≠ nul) = s.data := by
    rw [List.takeWhile_eq_self_iff]
    intro x hx
    have : x ≠ nul := fun e => h (e ▸ hx)
    simpa using this
  rw [h1]

theorem c_str_append (a b : String) (h : noNul a) : c_str (a ++ b) = a ++ c_str b := by
  unfold c_str
  apply String.ext
  rw [String.data_append, String.data_append]
  apply List.takeWhile_append_of_pos
  intro x hx
  have : x ≠ nul := fun e => h (e ▸ hx)
  simpa using this

theorem noNul_append (a b : String) : noNul (a ++ b) ↔ noNul a ∧ noNul b := by
  unfold noNul
  rw [String.data_append, List.mem_append]
  tauto

theorem noNul_intercalate (l : List String) (h : ∀ s, s ∈ l → noNul s) :
    noNul (", ".intercalate l) := by
  induction l with
  | nil => decide
  | cons a rest ih =>
    have hrest : ∀ s, s ∈ rest → noNul s := fun s hs => h s (List.mem_cons_of_mem _ hs)
    cases rest with
    | nil => rw [intercalate_single]; exact h a (List.mem_cons_self _ _)
    | cons b rest2 =>
      rw [intercalate_cons_cons, noNul_append, noNul_append]
      exact ⟨⟨h a (List.mem_cons_self _ _), by decide⟩, ih hrest⟩

theorem digitChar_big (n : Nat) : Nat.digitChar (n + 16) = '*' := rfl

theorem digitChar_ne_nul (k : Nat) : Nat.digitChar k ≠ nul := by
  by_cases h : k < 16
  · interval_cases k <;> decide
  · obtain ⟨n, rfl⟩ : ∃ n, k = n + 16 := ⟨k - 16, by omega⟩
    rw [digitChar_big]
    decide

theorem toDigitsCore_ne_nul (fuel : Nat) :
    ∀ (n : Nat) (ds : List Char), (∀ c, c ∈ ds → c ≠ nul) →
      ∀ c, c ∈ Nat.toDigitsCore 10 fuel n ds → c ≠ nul := by
  induction fuel with
  | zero => intro n ds h c hc; exact h c hc
  | succ fuel ih =>
    intro n ds h c hc
    have hds : ∀ c, c ∈ Nat.digitChar (n % 10) :: ds → c ≠ nul := by
      intro c hc
      rcases List.mem_cons.mp hc with h1 | h1
      · rw [h1]; exact digitChar_ne_nul _
      · exact h c h1
    unfold Nat.toDigitsCore at hc
    dsimp only at hc
    split at hc
    · exact hds c hc
    · exact ih _ _ hds c hc

theorem noNul_repr (n : Nat) : noNul (Nat.repr n) := by
  intro h
  have h1 : nul ∈ Nat.toDigits 10 n := h
  exact toDigitsCore_ne_nul (n + 1) n [] (by simp) nul h1 rfl

theorem noNul_toString_int (id : Int) : noNul (toString id) := by
  cases id with
  | ofNat m => exact noNul_repr m
  | negSucc m =>
    show noNul ("-" ++ Nat.repr (Nat.succ m))
    rw [noNul_append]
    exact ⟨by decide, noNul_repr _⟩

theorem size_t_sub_one (n : Nat) (h0 : 0 < n) : size_t_sub n 1 = n - 1 := by
  unfold size_t_sub
  rw [if_pos (show 1 ≤ n from h0)]

namespace EloquentORM

theorem createColumns_nil (size i : Nat) (ss : String) : createColumns size i [] ss = ss := rfl

theorem createColumns_cons (size i : Nat) (col : String) (rest : List String) (ss : String) :
    createColumns size i (col :: rest) ss =
      createColumns size (i + 1) rest
        (if i < size_t_sub size 1 then ss ++ col ++ ", " else ss ++ col) := rfl

theorem createColumns_eq (size : Nat) (rest : List String) :
    ∀ (i : Nat) (ss : String), i + rest.length = size →
      createColumns size i rest ss = ss ++ ", ".intercalate rest := by
  induction rest with
  | nil =>
    intro i ss _
    rw [createColumns_nil]
    show ss = ss ++ ""
    rw [String.append_empty]
  | cons col rest ih =>
    intro i ss hlen
    simp only [List.length_cons] at hlen
    have hsub : size_t_sub size 1 = size - 1 := size_t_sub_one size (by omega)
    rw [createColumns_cons, hsub, ih (i + 1) _ (by omega)]
    cases rest with
    | nil =>
      have : ¬ i < size - 1 := by simp at hlen; omega
      rw [if_neg this, intercalate_single, String.append_assoc]
      show ss ++ (col ++ "") = ss ++ col
      rw [String.append_empty]
    | cons b rest2 =>
      have : i < size - 1 := by simp at hlen; omega
      rw [if_pos this, intercalate_cons_cons, String.append_assoc, String.append_assoc,
        String.append_assoc]

theorem createValues_nil (size i : Nat) (st : AttrMap × String) :
    createValues size i [] st = st := rfl

theorem createValues_cons (size i : Nat) (col : String) (rest : List String)
    (st : AttrMap × String) :
    createValues size i (col :: rest) st =
      createValues size (i + 1) rest
        ((mapSubscript st.1 col).1,
          if i < size_t_sub size 1 then st.2 ++ "'" ++ (mapSubscript st.1 col).2 ++ "'" ++ ", "
          else st.2 ++ "'" ++ (mapSubscript st.1 col).2 ++ "'") := rfl

theorem quotedValues_subscript (a : AttrMap) (k : String) (cols : List String) :
    quotedValues (mapSubscript a k).1 cols = quotedValues a cols := by
  unfold quotedValues
  apply List.map_congr_left
  intro c _
  rw [mapSubscript_get]

theorem createValues_eq (size : Nat) (rest : List String) :
    ∀ (i : Nat) (a : AttrMap) (ss : String), i + rest.length = size →
      (createValues size i rest (a, ss)).2 = ss ++ ", ".intercalate (quotedValues a rest) := by
  induction rest with
  | nil =>
    intro i a ss _
    rw [createValues_nil]
    show ss = ss ++ ""
    rw [String.append_empty]
  | cons col rest ih =>
    intro i a ss hlen
    simp only [List.length_cons] at hlen
    have hsub : size_t_sub size 1 = size - 1 := size_t_sub_one size (by omega)
    rw [createValues_cons, hsub, ih (i + 1) _ _ (by omega), quotedValues_subscript,
      mapSubscript_snd]
    cases rest with
    | nil =>
      have : ¬ i < size - 1 := by simp at hlen; omega
      simp only [if_neg this]
      show _ = ss ++ ("'" ++ mapGet a col ++ "'")
      simp only [String.append_assoc]
      rfl
    | cons b rest2 =>
      have : i < size - 1 := by simp at hlen; omega
      simp only [if_pos this]
      show _ = ss ++ ", ".intercalate
        (("'" ++ mapGet a col ++ "'") :: ("'" ++ mapGet a b ++ "'") :: quotedValues a rest2)
      rw [intercalate_cons_cons]
      simp only [String.append_assoc]
      rfl

end EloquentORM

namespace EloquentORM

/-! ## create -/

theorem createQuery_eq (m : EloquentORM) : createQuery m = insertStatement m := by
  unfold createQuery insertStatement
  rw [createValues_eq m.columns.length m.columns 0 _ _ (by simp),
    createColumns_eq m.columns.length m.columns 0 _ (by simp)]

theorem create_unfold (conn : MYSQL) (m : EloquentORM) :
    create conn m =
      ({ conn with sent := conn.sent ++ [c_str (insertStatement m)] },
        { m with attributes :=
            (createValues m.columns.length 0 m.columns
              (m.attributes,
                createColumns m.columns.length 0 m.columns ("INSERT INTO " ++ m.table ++ " (")
                  ++ ") VALUES (")).1 },
        !(conn.server conn.sent (c_str (insertStatement m))).failed) := by
  rw [← createQuery_eq]
  unfold create createQuery mysql_query
  dsimp only
  cases (conn.server conn.sent _).failed <;> rfl

theorem noNul_quotedValues (a : AttrMap) (cols : List String)
    (h : ∀ c, c ∈ cols → noNul c ∧ noNul (mapGet a c)) :
    ∀ s, s ∈ quotedValues a cols → noNul s := by
  intro s hs
  unfold quotedValues at hs
  obtain ⟨c, hc, rfl⟩ := List.mem_map.mp hs
  rw [noNul_append, noNul_append]
  exact ⟨⟨by decide, (h c hc).2⟩, by decide⟩

theorem noNul_insertStatement (m : EloquentORM) (ht : noNul m.table)
    (hc : ∀ c, c ∈ m.columns → noNul c ∧ noNul (mapGet m.attributes c)) :
    noNul (insertStatement m) := by
  unfold insertStatement
  simp only [noNul_append]
  exact ⟨⟨⟨⟨⟨⟨by decide, ht⟩, by decide⟩, noNul_intercalate _ (fun c h => (hc c h).1)⟩,
    by decide⟩, noNul_intercalate _ (noNul_quotedValues _ _ hc)⟩, by decide⟩

/-- C1 (as stated, refuted): with a NUL character inside a value the statement the
server receives ends at that character, so it is not the full INSERT text. -/
theorem create_cuts_at_nul :
    (create conn0 nulValue).1.sent = ["INSERT INTO personas (NOMBRE, EDAD) VALUES ('A"] ∧
      (create conn0 nulValue).1.sent ≠ conn0.sent ++
        ["INSERT INTO " ++ nulValue.table ++ " (" ++ ", ".intercalate nulValue.columns
          ++ ") VALUES ("
          ++ ", ".intercalate
              (nulValue.columns.map (fun c => "'" ++ mapGet nulValue.attributes c ++ "'"))
          ++ ")"] := by
  decide

/-- C1 (amended): `create()` sends exactly one statement, the INSERT text over the
columns in `columns` order with every value quoted, cut at its first NUL character; it
is the full text when table, column names and values hold no NUL character; `create()`
returns true exactly when the server accepts the statement; on the `personas` scenario
the text is the one the spec gives. -/
theorem create_sends_insert (conn : MYSQL) (m : EloquentORM) :
    (create conn m).1.sent = conn.sent ++
        [c_str ("INSERT INTO " ++ m.table ++ " (" ++ ", ".intercalate m.columns ++ ") VALUES ("
          ++ ", ".intercalate (m.columns.map (fun c => "'" ++ mapGet m.attributes c ++ "'"))
          ++ ")")] ∧
      (noNul m.table → (∀ c, c ∈ m.columns → noNul c ∧ noNul (mapGet m.attributes c)) →
        (create conn m).1.sent = conn.sent ++
          ["INSERT INTO " ++ m.table ++ " (" ++ ", ".intercalate m.columns ++ ") VALUES ("
            ++ ", ".intercalate (m.columns.map (fun c => "'" ++ mapGet m.attributes c ++ "'"))
            ++ ")"]) ∧
      ((create conn m).2.2 = true ↔
        (conn.server conn.sent (c_str (insertStatement m))).failed = false) ∧
      (create conn0 personas).1.sent =
        ["INSERT INTO personas (NOMBRE, EDAD, GENERO) VALUES ('Ana', '30', '')"] ∧
      (create conn0 personas).2.2 = true := by
  refine ⟨?_, ?_, ?_, by decide, by decide⟩
  · rw [create_unfold]; rfl
  · intro ht hc
    rw [create_unfold, c_str_of_noNul _ (noNul_insertStatement m ht hc)]
    rfl
  · rw [create_unfold]; simp

theorem create_sends_insert_witness :
    (create conn0 personas).1.sent = conn0.sent ++
      ["INSERT INTO " ++ personas.table ++ " (" ++ ", ".intercalate personas.columns
        ++ ") VALUES ("
        ++ ", ".intercalate
            (personas.columns.map (fun c => "'" ++ mapGet personas.attributes c ++ "'"))
        ++ ")"] :=
  (create_sends_insert conn0 personas).2.1 (by decide) (by decide)

end EloquentORM

/-! ## update, remove -/

theorem intercalate_cons_sepTail (a : String) (l : List String) :
    ", ".intercalate (a :: l) = a ++ sepTail l := by
  induction l generalizing a with
  | nil => show a = a ++ ""; rw [String.append_empty]
  | cons b l ih =>
    rw [intercalate_cons_cons, ih b]
    show _ = a ++ (", " ++ b ++ sepTail l)
    simp only [String.append_assoc]

theorem mapGet_eq_empty_iff (a : AttrMap) (k : String) :
    mapGet a k = "" ↔ (a k = none ∨ a k = some "") := by
  unfold mapGet
  cases h : a k <;> simp

namespace EloquentORM

theorem idMissing_fst (a : AttrMap) : (idMissing a).1 = a := by
  unfold idMissing
  cases h : a "id" with
  | none => rfl
  | some v => exact mapSubscript_present a "id" (by rw [h]; simp)

theorem idMissing_snd (a : AttrMap) : (idMissing a).2 = decide (mapGet a "id" = "") := by
  unfold idMissing
  cases h : a "id" with
  | none => simp [mapGet, h]
  | some v => simp [mapSubscript_snd, empty]

theorem setEntries_subscript (a : AttrMap) (k : String) (cols : List String) :
    setEntries (mapSubscript a k).1 cols = setEntries a cols := by
  unfold setEntries
  apply List.map_congr_left
  intro c _
  rw [mapSubscript_get]

theorem setEntries_cons_id (a : AttrMap) (rest : List String) :
    setEntries a ("id" :: rest) = setEntries a rest := by
  simp [setEntries]

theorem setEntries_cons_other (a : AttrMap) (col : String) (rest : List String)
    (h : col ≠ "id") :
    setEntries a (col :: rest) = (col ++ " = '" ++ mapGet a col ++ "'") :: setEntries a rest := by
  simp [setEntries, h]

theorem updateLoop_nil (st : AttrMap × String × Bool) : updateLoop [] st = st := by
  rw [updateLoop]

theorem updateLoop_cons_id (rest : List String) (a : AttrMap) (ss : String) (first : Bool) :
    updateLoop ("id" :: rest) (a, ss, first) = updateLoop rest (a, ss, first) := by
  rw [updateLoop]; simp

theorem updateLoop_cons_other (col : String) (rest : List String) (a : AttrMap) (ss : String)
    (first : Bool) (h : col ≠ "id") :
    updateLoop (col :: rest) (a, ss, first) =
      updateLoop rest ((mapSubscript a col).1,
        (if !first then ss ++ ", " else ss) ++ col ++ " = '" ++ (mapSubscript a col).2 ++ "'",
        false) := by
  rw [updateLoop]; simp [h]

theorem updateLoop_get (cols : List String) :
    ∀ (a : AttrMap) (ss : String) (first : Bool) (x : String),
      mapGet (updateLoop cols (a, ss, first)).1 x = mapGet a x := by
  induction cols with
  | nil => intro a ss first x; rw [updateLoop_nil]
  | cons col rest ih =>
    intro a ss first x
    by_cases h : col = "id"
    · subst h; rw [updateLoop_cons_id, ih]
    · rw [updateLoop_cons_other _ _ _ _ _ h, ih, mapSubscript_get]

theorem updateLoop_rest (cols : List String) :
    ∀ (a : AttrMap) (ss : String),
      (updateLoop cols (a, ss, false)).2.1 = ss ++ sepTail (setEntries a cols) := by
  induction cols with
  | nil =>
    intro a ss
    rw [updateLoop_nil]
    show ss = ss ++ ""
    rw [String.append_empty]
  | cons col rest ih =>
    intro a ss
    by_cases h : col = "id"
    · subst h; rw [updateLoop_cons_id, ih, setEntries_cons_id]
    · rw [updateLoop_cons_other _ _ _ _ _ h, ih, setEntries_subscript, mapSubscript_snd,
        setEntries_cons_other _ _ _ h]
      show _ = ss ++ (", " ++ (col ++ " = '" ++ mapGet a col ++ "'") ++ sepTail (setEntries a rest))
      simp only [Bool.not_false, if_true, String.append_assoc]

theorem updateLoop_first (cols : List String) :
    ∀ (a : AttrMap) (ss : String),
      (updateLoop cols (a, ss, true)).2.1 = ss ++ ", ".intercalate (setEntries a cols) := by
  induction cols with
  | nil =>
    intro a ss
    rw [updateLoop_nil]
    show ss = ss ++ ""
    rw [String.append_empty]
  | cons col rest ih =>
    intro a ss
    by_cases h : col = "id"
    · subst h; rw [updateLoop_cons_id, ih, setEntries_cons_id]
    · rw [updateLoop_cons_other _ _ _ _ _ h, updateLoop_rest, setEntries_subscript,
        mapSubscript_snd, setEntries_cons_other _ _ _ h, intercalate_cons_sepTail]
      simp only [Bool.not_true, String.append_assoc]
      rfl

end EloquentORM

namespace EloquentORM

theorem update_unbound (conn : MYSQL) (m : EloquentORM) (h : mapGet m.attributes "id" = "") :
    update conn m = (conn, m, false) := by
  unfold update
  simp only [idMissing_snd, idMissing_fst, h, decide_True, if_true]

theorem update_bound (conn : MYSQL) (m : EloquentORM) (h : mapGet m.attributes "id" ≠ "") :
    (update conn m).1 = { conn with sent := conn.sent ++ [c_str (updateStatement m)] } ∧
      (update conn m).2.2 = !(conn.server conn.sent (c_str (updateStatement m))).failed := by
  have hq : (updateLoop m.columns (m.attributes, "UPDATE " ++ m.table ++ " SET ", true)).2.1
      ++ " WHERE id = "
      ++ (mapSubscript
          (updateLoop m.columns (m.attributes, "UPDATE " ++ m.table ++ " SET ", true)).1 "id").2
      = updateStatement m := by
    rw [updateLoop_first, mapSubscript_snd, updateLoop_get]
    rfl
  unfold update
  simp only [idMissing_snd, idMissing_fst, h, decide_False, mysql_query, hq]
  cases (conn.server conn.sent (c_str (updateStatement m))).failed <;> simp

theorem remove_unbound (conn : MYSQL) (m : EloquentORM) (h : mapGet m.attributes "id" = "") :
    remove conn m = (conn, m, false) := by
  unfold remove
  simp only [idMissing_snd, idMissing_fst, h, decide_True, if_true]

theorem remove_bound (conn : MYSQL) (m : EloquentORM) (h : mapGet m.attributes "id" ≠ "") :
    (remove conn m).1 = { conn with sent := conn.sent ++ [c_str (deleteStatement m)] } ∧
      (remove conn m).2.2 = !(conn.server conn.sent (c_str (deleteStatement m))).failed := by
  unfold remove
  simp only [idMissing_snd, idMissing_fst, h, decide_False, mysql_query, mapSubscript_snd]
  unfold deleteStatement
  cases (conn.server conn.sent _).failed <;> simp

end EloquentORM

namespace EloquentORM

theorem quote_mem_of_updateShape (stmt table id : String) (h : UpdateShape stmt table id) :
    Char.ofNat 39 ∈ stmt.data := by
  obtain ⟨c1, v1, more, rfl⟩ := h
  simp only [List.map_cons, intercalate_cons_sepTail, String.data_append, List.mem_append]
  refine Or.inl (Or.inl (Or.inr (Or.inl (Or.inr ?_))))
  decide

theorem updateShape_of_entries (table id : String) (a : AttrMap) (c1 : String)
    (rest : List String) :
    UpdateShape
      ("UPDATE " ++ table ++ " SET "
        ++ ", ".intercalate ((c1 :: rest).map (fun c => c ++ " = '" ++ mapGet a c ++ "'"))
        ++ " WHERE id = " ++ id) table id := by
  refine ⟨c1, mapGet a c1, rest.map (fun c => (c, mapGet a c)), ?_⟩
  simp only [List.map_cons, List.map_map]
  rfl

theorem noNul_setEntries (a : AttrMap) (cols : List String)
    (h : ∀ c, c ∈ cols → noNul c ∧ noNul (mapGet a c)) :
    ∀ s, s ∈ setEntries a cols → noNul s := by
  intro s hs
  unfold setEntries at hs
  obtain ⟨c, hc, rfl⟩ := List.mem_map.mp hs
  have hc2 : c ∈ cols := (List.mem_filter.mp hc).1
  rw [noNul_append, noNul_append, noNul_append]
  exact ⟨⟨⟨(h c hc2).1, by decide⟩, (h c hc2).2⟩, by decide⟩

theorem noNul_updateStatement (m : EloquentORM) (ht : noNul m.table)
    (hc : ∀ c, c ∈ m.columns → noNul c ∧ noNul (mapGet m.attributes c))
    (hid : noNul (mapGet m.attributes "id")) : noNul (updateStatement m) := by
  unfold updateStatement
  simp only [noNul_append]
  exact ⟨⟨⟨⟨⟨by decide, ht⟩, by decide⟩, noNul_intercalate _ (noNul_setEntries _ _ hc)⟩,
    by decide⟩, hid⟩

theorem noNul_deleteStatement (m : EloquentORM) (ht : noNul m.table)
    (hid : noNul (mapGet m.attributes "id")) : noNul (deleteStatement m) := by
  unfold deleteStatement
  simp only [noNul_append]
  exact ⟨⟨⟨by decide, ht⟩, by decide⟩, hid⟩

/-- C2 (as stated, refuted): with `id` as the only column the statement sent has an
empty SET list, so it is not of the shape `UPDATE t SET c1 = 'v1', ... WHERE id = <id>`;
and with a NUL character inside a value the statement the server receives ends at that
character, so it is not the full UPDATE text. -/
theorem update_shape_fails_without_columns :
    mapGet bare.attributes "id" ≠ "" ∧ bare.columns = ["id"] ∧
      (update conn0 bare).1.sent = ["UPDATE t SET  WHERE id = 5"] ∧
      ¬ UpdateShape "UPDATE t SET  WHERE id = 5" bare.table (mapGet bare.attributes "id") ∧
      mapGet nulBound.attributes "id" ≠ "" ∧
      (update conn0 nulBound).1.sent = ["UPDATE personas SET NOMBRE = 'A"] ∧
      (update conn0 nulBound).1.sent ≠ conn0.sent ++
        ["UPDATE " ++ nulBound.table ++ " SET "
          ++ ", ".intercalate ((nulBound.columns.filter (fun c => c ≠ "id")).map
              (fun c => c ++ " = '" ++ mapGet nulBound.attributes c ++ "'"))
          ++ " WHERE id = " ++ mapGet nulBound.attributes "id"] := by
  refine ⟨by decide, rfl, by decide, ?_, by decide, by decide, by decide⟩
  intro h
  have hq := quote_mem_of_updateShape _ _ _ h
  revert hq
  decide

/-- C2 (amended): when `attributes["id"]` is non-empty, `update()` sends exactly one
statement, the text `UPDATE t SET <entries> WHERE id = <id>` cut at its first NUL
character, the entries being `c = 'a(c)'` for the columns other than `id` in `columns`
order, joined by comma-space; `id` is never among the SET columns; when table, columns,
values and id hold no NUL character the statement is that full text, and it then has the
shape with a non-empty SET list whenever some column differs from `id`. -/
theorem update_sends_update (conn : MYSQL) (m : EloquentORM)
    (h : mapGet m.attributes "id" ≠ "") :
    (update conn m).1.sent = conn.sent ++
        [c_str ("UPDATE " ++ m.table ++ " SET "
          ++ ", ".intercalate ((m.columns.filter (fun c => c ≠ "id")).map
              (fun c => c ++ " = '" ++ mapGet m.attributes c ++ "'"))
          ++ " WHERE id = " ++ mapGet m.attributes "id")] ∧
      "id" ∉ m.columns.filter (fun c => c ≠ "id") ∧
      (noNul m.table → (∀ c, c ∈ m.columns → noNul c ∧ noNul (mapGet m.attributes c)) →
        noNul (mapGet m.attributes "id") →
        (update conn m).1.sent = conn.sent ++
          ["UPDATE " ++ m.table ++ " SET "
            ++ ", ".intercalate ((m.columns.filter (fun c => c ≠ "id")).map
                (fun c => c ++ " = '" ++ mapGet m.attributes c ++ "'"))
            ++ " WHERE id = " ++ mapGet m.attributes "id"] ∧
        ((∃ c ∈ m.columns, c ≠ "id") →
          ∃ stmt, (update conn m).1.sent = conn.sent ++ [stmt] ∧
            UpdateShape stmt m.table (mapGet m.attributes "id"))) := by
  have hcut : (update conn m).1.sent = conn.sent ++ [c_str (updateStatement m)] := by
    rw [(update_bound conn m h).1]
  refine ⟨hcut, by simp, ?_⟩
  intro ht hc hid
  have hsent : (update conn m).1.sent = conn.sent ++ [updateStatement m] := by
    rw [hcut, c_str_of_noNul _ (noNul_updateStatement m ht hc hid)]
  refine ⟨hsent, ?_⟩
  rintro ⟨c, hc, hne⟩
  refine ⟨updateStatement m, hsent, ?_⟩
  unfold updateStatement setEntries
  have hmem : c ∈ m.columns.filter (fun c => c ≠ "id") := by
    simp [List.mem_filter, hc, hne]
  cases hf : m.columns.filter (fun c => c ≠ "id") with
  | nil => rw [hf] at hmem; simp at hmem
  | cons c1 rest => exact updateShape_of_entries _ _ _ c1 rest

theorem update_sends_update_witness :
    mapGet bound.attributes "id" ≠ "" ∧
      (update conn0 bound).1.sent = ["UPDATE personas SET NOMBRE = 'Ana', EDAD = '' WHERE id = 7"] ∧
      ∃ stmt, (update conn0 bound).1.sent = conn0.sent ++ [stmt] ∧ UpdateShape stmt "personas" "7" :=
  ⟨by decide,
    ((update_sends_update conn0 bound (by decide)).2.2 (by decide) (by decide) (by decide)).1,
    ((update_sends_update conn0 bound (by decide)).2.2 (by decide) (by decide) (by decide)).2
      ⟨"NOMBRE", by decide, by decide⟩⟩

end EloquentORM

namespace EloquentORM

/-- C3 (as stated, refuted): with a NUL character inside the id `remove()` sends the
DELETE text only up to that character, not the full text. -/
theorem remove_cuts_at_nul :
    mapGet nulId.attributes "id" ≠ "" ∧
      (remove conn0 nulId).1.sent = ["DELETE FROM personas WHERE id = 7"] ∧
      (remove conn0 nulId).1.sent ≠ conn0.sent ++
        ["DELETE FROM " ++ nulId.table ++ " WHERE id = " ++ mapGet nulId.attributes "id"] := by
  decide

/-- C3 (amended): without an id (no `id` key, or an empty value) `update()` and
`remove()` return false and send nothing; with a non-empty id each sends exactly one
statement (for `remove` the DELETE by id, cut at its first NUL character, hence the full
text when table and id hold no NUL character) and returns true exactly when the server
accepts it. -/
theorem update_remove_precondition (conn : MYSQL) (m : EloquentORM) :
    ((m.attributes "id" = none ∨ m.attributes "id" = some "") →
        (update conn m).2.2 = false ∧ (update conn m).1 = conn ∧
        (remove conn m).2.2 = false ∧ (remove conn m).1 = conn) ∧
      (¬ (m.attributes "id" = none ∨ m.attributes "id" = some "") →
        (∃ stmt, (update conn m).1.sent = conn.sent ++ [stmt] ∧
          ((update conn m).2.2 = true ↔ (conn.server conn.sent stmt).failed = false)) ∧
        (∃ stmt, (remove conn m).1.sent = conn.sent ++ [stmt] ∧
          ((remove conn m).2.2 = true ↔ (conn.server conn.sent stmt).failed = false)) ∧
        (remove conn m).1.sent = conn.sent ++
          [c_str ("DELETE FROM " ++ m.table ++ " WHERE id = " ++ mapGet m.attributes "id")] ∧
        (noNul m.table → noNul (mapGet m.attributes "id") →
          (remove conn m).1.sent = conn.sent ++
            ["DELETE FROM " ++ m.table ++ " WHERE id = " ++ mapGet m.attributes "id"])) := by
  constructor
  · intro h
    have h1 : mapGet m.attributes "id" = "" := (mapGet_eq_empty_iff _ _).mpr h
    rw [update_unbound conn m h1, remove_unbound conn m h1]
    exact ⟨rfl, rfl, rfl, rfl⟩
  · intro h
    have h1 : mapGet m.attributes "id" ≠ "" := fun e => h ((mapGet_eq_empty_iff _ _).mp e)
    refine ⟨⟨c_str (updateStatement m), ?_, ?_⟩, ⟨c_str (deleteStatement m), ?_, ?_⟩, ?_, ?_⟩
    · rw [(update_bound conn m h1).1]
    · rw [(update_bound conn m h1).2]; simp
    · rw [(remove_bound conn m h1).1]
    · rw [(remove_bound conn m h1).2]; simp
    · rw [(remove_bound conn m h1).1]; rfl
    · intro ht hid
      rw [(remove_bound conn m h1).1, c_str_of_noNul _ (noNul_deleteStatement m ht hid)]
      rfl

theorem update_remove_precondition_witness :
    ((update conn0 personas).2.2 = false ∧ (update conn0 personas).1 = conn0 ∧
        (remove conn0 personas).2.2 = false ∧ (remove conn0 personas).1 = conn0) ∧
      (remove conn0 bound).1.sent = ["DELETE FROM personas WHERE id = 7"] :=
  ⟨(update_remove_precondition conn0 personas).1 (Or.inl rfl),
    ((update_remove_precondition conn0 bound).2 (by decide)).2.2.2 (by decide) (by decide)⟩

/-- C4: `save()` gives the same session, mapper and result as `create()` when there is
no `id` key or its value is empty, and the same as `update()` in every other state. -/
theorem save_dispatch (conn : MYSQL) (m : EloquentORM) :
    ((m.attributes "id" = none ∨ m.attributes "id" = some "") →
        save conn m = create conn m) ∧
      (¬ (m.attributes "id" = none ∨ m.attributes "id" = some "") →
        save conn m = update conn m) := by
  constructor
  · intro h
    have h1 : mapGet m.attributes "id" = "" := (mapGet_eq_empty_iff _ _).mpr h
    unfold save
    simp only [idMissing_fst, idMissing_snd, h1, decide_True, if_true]
  · intro h
    have h1 : mapGet m.attributes "id" ≠ "" := fun e => h ((mapGet_eq_empty_iff _ _).mp e)
    unfold save
    simp only [idMissing_fst, idMissing_snd, h1, decide_False]
    rfl

theorem save_dispatch_witness :
    save conn0 personas = create conn0 personas ∧ save conn0 bound = update conn0 bound :=
  ⟨(save_dispatch conn0 personas).1 (Or.inl rfl), (save_dispatch conn0 bound).2 (by decide)⟩

end EloquentORM

/-! ## where, raw -/

namespace EloquentORM

theorem like_ne_empty (f v : String) : f ++ " LIKE '%" ++ v ++ "%'" ≠ "" :=
  append_ne_empty_right _ _ (by decide)

theorem where_fst (m : EloquentORM) (f v : String) : (m.where_ f v).1 = m := by
  unfold where_
  dsimp only
  split <;> rfl

theorem where_on_empty (m : EloquentORM) (f v : String) (h : m.condition = "") :
    (m.where_ f v).2.condition = f ++ " LIKE '%" ++ v ++ "%'" := by
  unfold where_
  simp [empty, h]

theorem where_on_nonempty (m : EloquentORM) (f v : String) (h : m.condition ≠ "") :
    (m.where_ f v).2.condition = m.condition ++ " AND " ++ f ++ " LIKE '%" ++ v ++ "%'" := by
  unfold where_
  simp [empty, h, String.append_assoc]

/-- C5: `where(f, v)` sets the copy's condition to `f LIKE '%v%'` when the receiver has
none, and appends ` AND f LIKE '%v%'` otherwise; two chained calls on a freshly
constructed mapper give `f1 LIKE '%v1%' AND f2 LIKE '%v2%'`, and the mapper they were
chained from still has an empty condition. -/
theorem where_condition (m : EloquentORM) (f v : String) :
    (m.condition = "" → (m.where_ f v).2.condition = f ++ " LIKE '%" ++ v ++ "%'") ∧
      (m.condition ≠ "" →
        (m.where_ f v).2.condition = m.condition ++ " AND " ++ f ++ " LIKE '%" ++ v ++ "%'") ∧
      (∀ (T : String) (C : List String) (f1 v1 f2 v2 : String),
        (((ctor T C).where_ f1 v1).2.where_ f2 v2).2.condition =
            f1 ++ " LIKE '%" ++ v1 ++ "%'" ++ " AND " ++ f2 ++ " LIKE '%" ++ v2 ++ "%'" ∧
          ((ctor T C).where_ f1 v1).1.condition = "" ∧
          (((ctor T C).where_ f1 v1).2.where_ f2 v2).1 = ((ctor T C).where_ f1 v1).2) := by
  refine ⟨where_on_empty m f v, where_on_nonempty m f v, ?_⟩
  intro T C f1 v1 f2 v2
  have h1 : ((ctor T C).where_ f1 v1).2.condition = f1 ++ " LIKE '%" ++ v1 ++ "%'" :=
    where_on_empty _ _ _ rfl
  refine ⟨?_, ?_, where_fst _ _ _⟩
  · rw [where_on_nonempty _ _ _ (by rw [h1]; exact like_ne_empty f1 v1), h1]
  · rw [where_fst]; rfl

theorem where_condition_witness :
    (fresh.where_ "NOMBRE" "An").2.condition = "NOMBRE LIKE '%An%'" ∧
      (filtered.where_ "EDAD" "3").2.condition = "NOMBRE LIKE '%An%' AND EDAD LIKE '%3%'" :=
  ⟨(where_condition fresh "NOMBRE" "An").1 rfl,
    (where_condition filtered "EDAD" "3").2.1 (by decide)⟩

/-- C6: `where` and `raw` leave the receiver as it was; the copy `where` returns has
the receiver's table, columns, attributes and raw query, and the copy `raw` returns has
the receiver's table, columns, attributes and condition and the given raw query. -/
theorem where_raw_frame (m : EloquentORM) (f v q : String) :
    (m.where_ f v).1 = m ∧ (m.raw q).1 = m ∧
      (m.where_ f v).2.table = m.table ∧ (m.where_ f v).2.columns = m.columns ∧
      (m.where_ f v).2.attributes = m.attributes ∧ (m.where_ f v).2.rawQuery = m.rawQuery ∧
      (m.raw q).2.table = m.table ∧ (m.raw q).2.columns = m.columns ∧
      (m.raw q).2.attributes = m.attributes ∧ (m.raw q).2.condition = m.condition ∧
      (m.raw q).2.rawQuery = q := by
  refine ⟨where_fst m f v, rfl, ?_, ?_, ?_, ?_, rfl, rfl, rfl, rfl, rfl⟩ <;>
    (unfold where_; dsimp only; split <;> rfl)

end EloquentORM

/-! ## getAll, first: the statement sent -/

namespace EloquentORM

theorem execute_fst (conn : MYSQL) (q : String) :
    (execute conn q).1 = { conn with sent := conn.sent ++ [c_str q] } := by
  unfold execute mysql_query
  dsimp only
  split <;> rfl

theorem execute_snd (conn : MYSQL) (q : String) :
    (execute conn q).2 =
      if (conn.server conn.sent (c_str q)).failed then none
      else (conn.server conn.sent (c_str q)).stored := by
  unfold execute mysql_query
  dsimp only
  split <;> rfl

theorem getAll_query (m : EloquentORM) :
    (if !empty m.rawQuery then m.rawQuery
      else if !empty m.condition then "SELECT * FROM " ++ m.table ++ (" WHERE " ++ m.condition)
      else "SELECT * FROM " ++ m.table) = selectQuery m := by
  unfold selectQuery
  by_cases h : m.rawQuery = "" <;> by_cases hc : m.condition = "" <;>
    simp [empty, h, hc, String.append_assoc]

theorem getAll_fst (conn : MYSQL) (m : EloquentORM) :
    (getAll conn m).1 = { conn with sent := conn.sent ++ [c_str (selectQuery m)] } := by
  unfold getAll
  dsimp only
  rw [getAll_query]
  split <;> exact execute_fst conn _

theorem first_fst (conn : MYSQL) (m : EloquentORM) :
    (first conn m).1 =
      { conn with sent := conn.sent ++ [c_str (selectQuery m ++ " LIMIT 1")] } := by
  unfold first
  dsimp only
  rw [getAll_query]
  split
  · split <;> exact execute_fst conn _
  · exact execute_fst conn _

theorem selectQuery_raw (m : EloquentORM) (h : m.rawQuery ≠ "") : selectQuery m = m.rawQuery := by
  unfold selectQuery
  simp [h]

theorem selectQuery_plain (m : EloquentORM) (h : m.rawQuery = "") (hc : m.condition = "") :
    selectQuery m = "SELECT * FROM " ++ m.table := by
  unfold selectQuery
  simp [h, hc]

theorem selectQuery_where (m : EloquentORM) (h : m.rawQuery = "") (hc : m.condition ≠ "") :
    selectQuery m = "SELECT * FROM " ++ m.table ++ " WHERE " ++ m.condition := by
  unfold selectQuery
  simp [h, hc]

/-- C7 (as stated, refuted): after `raw("")` the statement `getAll()` sends is not the
empty query but the standard SELECT, condition included, likewise for `first()`; and a
raw query holding a NUL character is sent only up to that character, by `getAll()` and
by `first()` alike, the ` LIMIT 1` being lost. -/
theorem raw_empty_query_falls_back :
    (getAll conn0 (filtered.raw "").2).1.sent =
        ["SELECT * FROM personas WHERE NOMBRE LIKE '%An%'"] ∧
      (getAll conn0 (filtered.raw "").2).1.sent ≠ conn0.sent ++ [""] ∧
      (first conn0 (filtered.raw "").2).1.sent =
        ["SELECT * FROM personas WHERE NOMBRE LIKE '%An%' LIMIT 1"] ∧
      (first conn0 (filtered.raw "").2).1.sent ≠ conn0.sent ++ ["" ++ " LIMIT 1"] ∧
      (getAll conn0 (filtered.raw "SELECT 1\x00SELECT 2").2).1.sent = ["SELECT 1"] ∧
      (getAll conn0 (filtered.raw "SELECT 1\x00SELECT 2").2).1.sent
        ≠ conn0.sent ++ ["SELECT 1\x00SELECT 2"] ∧
      (first conn0 (filtered.raw "SELECT 1\x00SELECT 2").2).1.sent = ["SELECT 1"] ∧
      (first conn0 (filtered.raw "SELECT 1\x00SELECT 2").2).1.sent
        ≠ conn0.sent ++ ["SELECT 1\x00SELECT 2" ++ " LIMIT 1"] := by
  decide

/-- C7 (amended): for every mapper `m`, whatever its condition, and every non-empty
query `q`, `m.raw(q).getAll()` sends `q` and `m.raw(q).first()` sends `q` followed by
` LIMIT 1`, each cut at its first NUL character; so for a `q` without NUL character the
statements are exactly `q` and `q` followed by ` LIMIT 1`. -/
theorem raw_overrides_condition (conn : MYSQL) (m : EloquentORM) (q : String) (hq : q ≠ "") :
    (getAll conn (m.raw q).2).1.sent = conn.sent ++ [c_str q] ∧
      (first conn (m.raw q).2).1.sent = conn.sent ++ [c_str (q ++ " LIMIT 1")] ∧
      (noNul q →
        (getAll conn (m.raw q).2).1.sent = conn.sent ++ [q] ∧
        (first conn (m.raw q).2).1.sent = conn.sent ++ [q ++ " LIMIT 1"]) := by
  have h : selectQuery (m.raw q).2 = q := selectQuery_raw _ hq
  rw [getAll_fst, first_fst, h]
  refine ⟨rfl, rfl, fun hn => ?_⟩
  have hl : noNul (q ++ " LIMIT 1") := (noNul_append _ _).mpr ⟨hn, by decide⟩
  rw [c_str_of_noNul q hn, c_str_of_noNul _ hl]
  exact ⟨rfl, rfl⟩

theorem raw_overrides_condition_witness :
    (getAll conn0 (filtered.raw "SELECT 1").2).1.sent = ["SELECT 1"] ∧
      (first conn0 (filtered.raw "SELECT 1").2).1.sent = ["SELECT 1 LIMIT 1"] :=
  (raw_overrides_condition conn0 filtered "SELECT 1" (by decide)).2.2 (by decide)

/-- C8 (as stated, refuted): with a NUL character inside the condition `getAll()`
sends the SELECT only up to that character, and `first()` sends the same cut text, not
the statement of `getAll()` followed by ` LIMIT 1`. -/
theorem first_loses_limit_after_nul :
    nulFiltered.rawQuery = "" ∧ nulFiltered.condition ≠ "" ∧
      (getAll conn0 nulFiltered).1.sent = ["SELECT * FROM personas WHERE NOMBRE LIKE '%A"] ∧
      (getAll conn0 nulFiltered).1.sent ≠ conn0.sent ++
        ["SELECT * FROM " ++ nulFiltered.table ++ " WHERE " ++ nulFiltered.condition] ∧
      (first conn0 nulFiltered).1.sent = ["SELECT * FROM personas WHERE NOMBRE LIKE '%A"] ∧
      (first conn0 nulFiltered).1.sent ≠
        conn0.sent ++ ["SELECT * FROM personas WHERE NOMBRE LIKE '%A" ++ " LIMIT 1"] := by
  decide

/-- C8 (amended): with an empty raw query `getAll()` sends `SELECT * FROM t`, followed
by ` WHERE <condition>` when the condition is non-empty, cut at its first NUL character,
hence that full text when table and condition hold no NUL character; and in every state
in which the query text `getAll()` builds (the raw query when one is set, else the SELECT
over table and condition) holds no NUL character, `first()` sends the statement
`getAll()` sends followed by ` LIMIT 1`. -/
theorem getAll_first_statement (conn : MYSQL) (m : EloquentORM) :
    (m.rawQuery = "" → m.condition = "" →
        (getAll conn m).1.sent = conn.sent ++ [c_str ("SELECT * FROM " ++ m.table)] ∧
        (noNul m.table → (getAll conn m).1.sent = conn.sent ++ ["SELECT * FROM " ++ m.table])) ∧
      (m.rawQuery = "" → m.condition ≠ "" →
        (getAll conn m).1.sent =
          conn.sent ++ [c_str ("SELECT * FROM " ++ m.table ++ " WHERE " ++ m.condition)] ∧
        (noNul m.table → noNul m.condition →
          (getAll conn m).1.sent =
            conn.sent ++ ["SELECT * FROM " ++ m.table ++ " WHERE " ++ m.condition])) ∧
      (noNul (selectQuery m) →
        ∃ stmt, (getAll conn m).1.sent = conn.sent ++ [stmt] ∧
          (first conn m).1.sent = conn.sent ++ [stmt ++ " LIMIT 1"]) := by
  refine ⟨?_, ?_, ?_⟩
  · intro h hc
    rw [getAll_fst, selectQuery_plain m h hc]
    refine ⟨rfl, fun ht => ?_⟩
    rw [c_str_of_noNul _ ((noNul_append _ _).mpr ⟨by decide, ht⟩)]
  · intro h hc
    rw [getAll_fst, selectQuery_where m h hc]
    refine ⟨rfl, fun ht hcn => ?_⟩
    have hn : noNul ("SELECT * FROM " ++ m.table ++ " WHERE " ++ m.condition) := by
      simp only [noNul_append]
      exact ⟨⟨⟨by decide, ht⟩, by decide⟩, hcn⟩
    rw [c_str_of_noNul _ hn]
  · intro hn
    have hl : noNul (selectQuery m ++ " LIMIT 1") := (noNul_append _ _).mpr ⟨hn, by decide⟩
    refine ⟨selectQuery m, ?_, ?_⟩
    · rw [getAll_fst, c_str_of_noNul _ hn]
    · rw [first_fst, c_str_of_noNul _ hl]

theorem getAll_first_statement_witness :
    (getAll conn0 fresh).1.sent = ["SELECT * FROM personas"] ∧
      (getAll conn0 filtered).1.sent = ["SELECT * FROM personas WHERE NOMBRE LIKE '%An%'"] ∧
      ∃ stmt, (getAll conn0 filtered).1.sent = conn0.sent ++ [stmt] ∧
        (first conn0 filtered).1.sent = conn0.sent ++ [stmt ++ " LIMIT 1"] :=
  ⟨((getAll_first_statement conn0 fresh).1 rfl rfl).2 (by decide),
    ((getAll_first_statement conn0 filtered).2.1 rfl (by decide)).2 (by decide) (by decide),
    (getAll_first_statement conn0 filtered).2.2 (by decide)⟩

end EloquentORM

/-! ## Decoding rows -/

namespace EloquentORM

theorem decodeRow_nil (row : List (Option String)) (record : AttrMap) :
    decodeRow [] row record = record := by
  simp [decodeRow]

theorem decodeRow_cons (f : String) (fs : List String) (c : Option String)
    (cs : List (Option String)) (record : AttrMap) :
    decodeRow (f :: fs) (c :: cs) record = decodeRow fs cs (mapAssign record f (c.getD "")) := by
  simp [decodeRow]

theorem decodeRow_not_mem (fields : List String) :
    ∀ (row : List (Option String)) (record : AttrMap) (k : String),
      k ∉ fields → decodeRow fields row record k = record k := by
  induction fields with
  | nil => intro row record k _; rw [decodeRow_nil]
  | cons f fs ih =>
    intro row record k hk
    cases row with
    | nil => simp [decodeRow]
    | cons c cs =>
      rw [decodeRow_cons, ih cs _ k (fun h => hk (List.mem_cons_of_mem _ h))]
      have hne : k ≠ f := fun h => hk (h ▸ List.mem_cons_self _ _)
      simp [mapAssign, hne]

theorem decodeRow_mem (fields : List String) :
    ∀ (row : List (Option String)) (record : AttrMap) (k : String),
      row.length = fields.length → k ∈ fields → decodeRow fields row record k ≠ none := by
  induction fields with
  | nil => intro row record k _ hk; simp at hk
  | cons f fs ih =>
    intro row record k hlen hk
    cases row with
    | nil => simp at hlen
    | cons c cs =>
      have hlen2 : cs.length = fs.length := by simpa using hlen
      rw [decodeRow_cons]
      by_cases hfs : k ∈ fs
      · exact ih cs _ k hlen2 hfs
      · rw [decodeRow_not_mem fs cs _ k hfs]
        have hkf : k = f := by
          rcases List.mem_cons.mp hk with h | h
          · exact h
          · exact absurd h hfs
        simp [mapAssign, hkf]

theorem not_mem_of_lastOf_zero (f : String) (fs : List String) (h : LastOf (f :: fs) 0) :
    f ∉ fs := by
  intro hmem
  obtain ⟨n, hn, hget⟩ := List.getElem_of_mem hmem
  have := h.2 (n + 1) (by omega) (by simpa using hn)
  apply this
  simp [List.getElem?_eq_getElem hn, hget]

theorem lastOf_tail (f : String) (fs : List String) (j : Nat) (h : LastOf (f :: fs) (j + 1)) :
    LastOf fs j := by
  refine ⟨by simpa using h.1, ?_⟩
  intro j2 hj hj2
  have := h.2 (j2 + 1) (by omega) (by simpa using hj2)
  simpa using this

theorem decodeRow_last (fields : List String) :
    ∀ (row : List (Option String)) (record : AttrMap) (j : Nat),
      row.length = fields.length → LastOf fields j →
        decodeRow fields row record (fields.getD j "") = some (cellText row j) := by
  induction fields with
  | nil => intro row record j _ h; exact absurd h.1 (by simp)
  | cons f fs ih =>
    intro row record j hlen h
    cases row with
    | nil => simp at hlen
    | cons c cs =>
      have hlen2 : cs.length = fs.length := by simpa using hlen
      rw [decodeRow_cons]
      cases j with
      | zero =>
        have hf : f ∉ fs := not_mem_of_lastOf_zero f fs h
        show decodeRow fs cs _ f = _
        rw [decodeRow_not_mem fs cs _ f hf]
        simp [mapAssign, cellText]
      | succ j =>
        have := ih cs (mapAssign record f (c.getD "")) j hlen2 (lastOf_tail f fs j h)
        simpa [cellText] using this

theorem lastOf_of_nodup (fields : List String) (hd : fields.Nodup) (j : Nat)
    (hj : j < fields.length) : LastOf fields j := by
  refine ⟨hj, ?_⟩
  intro j2 hlt hj2 heq
  rw [List.getD_eq_getElem _ _ hj2, List.getD_eq_getElem _ _ hj] at heq
  have := (List.Nodup.getElem_inj_iff hd).mp heq
  omega

theorem rowDecoded_decodeRow (fields : List String) (row : List (Option String))
    (hlen : row.length = fields.length) : RowDecoded fields row (decodeRow fields row mapEmpty) :=
  ⟨fun k hk => decodeRow_mem fields row mapEmpty k hlen hk,
    fun j hj => decodeRow_last fields row mapEmpty j hlen hj,
    fun k hk => by rw [decodeRow_not_mem fields row mapEmpty k hk]; rfl⟩

end EloquentORM

/-! ## getAll: the rows returned -/

namespace EloquentORM

theorem getAll_snd (conn : MYSQL) (m : EloquentORM) :
    (getAll conn m).2 =
      (m, match (execute conn (selectQuery m)).2 with
          | some res => res.rows.map (fun row => decodeRow res.fields row mapEmpty)
          | none => []) := by
  unfold getAll
  dsimp only
  rw [getAll_query]
  generalize (execute conn (selectQuery m)).2 = e
  cases e <;> rfl

/-- C9: `getAll()` leaves the mapper as it was; it returns the empty sequence when
the statement fails, when no result set comes back, or when the result set has no rows;
otherwise it returns one mapping per row, in row order, each holding every column name
of the result set as a key with the text of the row's cell (the empty string for NULL). -/
theorem getAll_decodes (conn : MYSQL) (m : EloquentORM) :
    (getAll conn m).2.1 = m ∧
      (conn.server conn.sent (c_str (selectQuery m)) = Reply.error → (getAll conn m).2.2 = []) ∧
      (conn.server conn.sent (c_str (selectQuery m)) = Reply.ok none → (getAll conn m).2.2 = []) ∧
      (∀ res, conn.server conn.sent (c_str (selectQuery m)) = Reply.ok (some res) →
        (res.rows = [] → (getAll conn m).2.2 = []) ∧
        ((∀ row ∈ res.rows, row.length = res.fields.length) →
          List.Forall₂ (RowDecoded res.fields) res.rows (getAll conn m).2.2 ∧
          (res.fields.Nodup →
            List.Forall₂
              (fun row record => ∀ j, j < res.fields.length →
                record (res.fields.getD j "") = some (cellText row j))
              res.rows (getAll conn m).2.2))) := by
  refine ⟨by rw [getAll_snd], ?_, ?_, ?_⟩
  · intro h; rw [getAll_snd, execute_snd, h]; rfl
  · intro h; rw [getAll_snd, execute_snd, h]; rfl
  · intro res h
    have hres : (getAll conn m).2.2 = res.rows.map (fun row => decodeRow res.fields row mapEmpty) := by
      rw [getAll_snd, execute_snd, h]; rfl
    rw [hres]
    refine ⟨fun h0 => by rw [h0]; rfl, fun hwf => ⟨?_, fun hd => ?_⟩⟩
    · rw [List.forall₂_map_right_iff, List.forall₂_same]
      intro row hrow
      exact rowDecoded_decodeRow res.fields row (hwf row hrow)
    · rw [List.forall₂_map_right_iff, List.forall₂_same]
      intro row hrow j hj
      exact decodeRow_last res.fields row mapEmpty j (hwf row hrow)
        (lastOf_of_nodup res.fields hd j hj)

theorem getAll_decodes_witness :
    List.Forall₂ (RowDecoded ["id", "NOMBRE"]) [[some "1", some "Ana"], [some "2", none]]
        (getAll conn1 fresh).2.2 ∧
      (getAll conn0 fresh).2.2 = [] ∧
      (getAll { server := rejectAll, sent := [] } fresh).2.2 = [] :=
  ⟨(((getAll_decodes conn1 fresh).2.2.2 twoRows rfl).2 (by decide)).1,
    (getAll_decodes conn0 fresh).2.2.1 rfl,
    (getAll_decodes { server := rejectAll, sent := [] } fresh).2.1 rfl⟩

/-! ## find -/

theorem find_fst (conn : MYSQL) (m : EloquentORM) (id : Int) :
    (find conn m id).1 = { conn with sent := conn.sent ++
      [c_str ("SELECT * FROM " ++ m.table ++ " WHERE id = " ++ to_string id ++ " LIMIT 1")] } := by
  unfold find
  dsimp only
  split
  · split <;> exact execute_fst conn _
  · exact execute_fst conn _

theorem find_snd (conn : MYSQL) (m : EloquentORM) (id : Int) :
    (find conn m id).2 =
      match (execute conn
          ("SELECT * FROM " ++ m.table ++ " WHERE id = " ++ to_string id ++ " LIMIT 1")).2 with
      | some res =>
        match res.rows with
        | row :: _ => ({ m with attributes := decodeRow res.fields row m.attributes }, true)
        | [] => (m, false)
      | none => (m, false) := by
  unfold find
  dsimp only
  generalize (execute conn _).2 = e
  cases e with
  | none => rfl
  | some res =>
    dsimp only
    generalize res.rows = rows
    cases rows <;> rfl

theorem noNul_findStatement (m : EloquentORM) (id : Int) (ht : noNul m.table) :
    noNul ("SELECT * FROM " ++ m.table ++ " WHERE id = " ++ toString id ++ " LIMIT 1") := by
  simp only [noNul_append]
  exact ⟨⟨⟨⟨by decide, ht⟩, by decide⟩, noNul_toString_int id⟩, by decide⟩

/-- C10 (as stated, refuted): with a NUL character inside the table name `find(id)`
sends the SELECT only up to that character; the id and ` LIMIT 1` never reach the server. -/
theorem find_cuts_at_nul :
    (find conn0 nulTable 7).1.sent = ["SELECT * FROM per"] ∧
      (find conn0 nulTable 7).1.sent ≠ conn0.sent ++
        ["SELECT * FROM " ++ nulTable.table ++ " WHERE id = " ++ toString (7 : Int) ++ " LIMIT 1"] := by
  decide

/-- C10 (amended): `find(id)` sends exactly one statement, the text
`SELECT * FROM t WHERE id = <decimal id> LIMIT 1` cut at its first NUL character, hence
that full text when the table name holds no NUL character, whatever the condition and
raw query; it returns true exactly when a result set with at least one row comes back;
then every column name of the result set is an attribute key holding the text of the
first row's cell (the empty string for NULL), every other attribute is as before, and
table, columns, condition and raw query are unchanged. -/
theorem find_loads_first_row (conn : MYSQL) (m : EloquentORM) (id : Int) :
    (find conn m id).1.sent = conn.sent ++
        [c_str ("SELECT * FROM " ++ m.table ++ " WHERE id = " ++ toString id ++ " LIMIT 1")] ∧
      (noNul m.table →
        (find conn m id).1.sent = conn.sent ++
          ["SELECT * FROM " ++ m.table ++ " WHERE id = " ++ toString id ++ " LIMIT 1"]) ∧
      ((find conn m id).2.2 = true ↔
        ∃ res row rest,
          conn.server conn.sent
            (c_str ("SELECT * FROM " ++ m.table ++ " WHERE id = " ++ toString id ++ " LIMIT 1"))
              = Reply.ok (some res) ∧ res.rows = row :: rest) ∧
      (∀ res row rest,
        conn.server conn.sent
            (c_str ("SELECT * FROM " ++ m.table ++ " WHERE id = " ++ toString id ++ " LIMIT 1"))
              = Reply.ok (some res) →
        res.rows = row :: rest → row.length = res.fields.length →
          (∀ k, k ∈ res.fields → (find conn m id).2.1.attributes k ≠ none) ∧
          (∀ j, LastOf res.fields j →
            (find conn m id).2.1.attributes (res.fields.getD j "") = some (cellText row j)) ∧
          (res.fields.Nodup → ∀ j, j < res.fields.length →
            (find conn m id).2.1.attributes (res.fields.getD j "") = some (cellText row j)) ∧
          (∀ k, k ∉ res.fields → (find conn m id).2.1.attributes k = m.attributes k) ∧
          (find conn m id).2.1.table = m.table ∧ (find conn m id).2.1.columns = m.columns ∧
          (find conn m id).2.1.condition = m.condition ∧
          (find conn m id).2.1.rawQuery = m.rawQuery) := by
  refine ⟨by rw [find_fst]; rfl, ?_, ?_, ?_⟩
  · intro ht
    rw [find_fst]
    show conn.sent ++ [c_str ("SELECT * FROM " ++ m.table ++ " WHERE id = " ++ toString id
      ++ " LIMIT 1")] = _
    rw [c_str_of_noNul _ (noNul_findStatement m id ht)]
  · have hs := find_snd conn m id
    rw [execute_snd] at hs
    rw [hs]
    cases hr : conn.server conn.sent
        (c_str ("SELECT * FROM " ++ m.table ++ " WHERE id = " ++ toString id ++ " LIMIT 1")) with
    | error =>
      have hr2 : conn.server conn.sent
          (c_str ("SELECT * FROM " ++ m.table ++ " WHERE id = " ++ to_string id ++ " LIMIT 1"))
            = Reply.error := hr
      simp [hr2, Reply.failed]
    | ok res =>
      have hr2 : conn.server conn.sent
          (c_str ("SELECT * FROM " ++ m.table ++ " WHERE id = " ++ to_string id ++ " LIMIT 1"))
            = Reply.ok res := hr
      cases res with
      | none => simp [hr2, Reply.failed, Reply.stored]
      | some rs =>
        cases hrows : rs.rows with
        | nil => simp [hr2, Reply.failed, Reply.stored, hrows]
        | cons row rest => simp [hr2, Reply.failed, Reply.stored, hrows]
  · intro res row rest hr hrows hlen
    have hr2 : conn.server conn.sent
        (c_str ("SELECT * FROM " ++ m.table ++ " WHERE id = " ++ to_string id ++ " LIMIT 1"))
          = Reply.ok (some res) := hr
    have hm : (find conn m id).2.1 =
        { m with attributes := decodeRow res.fields row m.attributes } := by
      rw [find_snd, execute_snd, hr2]
      simp [Reply.failed, Reply.stored, hrows]
    rw [hm]
    exact ⟨fun k hk => decodeRow_mem res.fields row m.attributes k hlen hk,
      fun j hj => decodeRow_last res.fields row m.attributes j hlen hj,
      fun hd j hj => decodeRow_last res.fields row m.attributes j hlen
        (lastOf_of_nodup res.fields hd j hj),
      fun k hk => decodeRow_not_mem res.fields row m.attributes k hk,
      rfl, rfl, rfl, rfl⟩

end EloquentORM

namespace EloquentORM

theorem find_loads_first_row_witness :
    (find conn1 fresh 7).1.sent = ["SELECT * FROM personas WHERE id = 7 LIMIT 1"] ∧
      (find conn1 filtered (-3)).1.sent = ["SELECT * FROM personas WHERE id = -3 LIMIT 1"] ∧
      (find conn1 fresh 7).2.1.attributes "NOMBRE" = some "Ana" ∧
      (find conn1 fresh 7).2.1.attributes "EDAD" = fresh.attributes "EDAD" :=
  ⟨(find_loads_first_row conn1 fresh 7).2.1 (by decide),
    (find_loads_first_row conn1 filtered (-3)).2.1 (by decide),
    ((find_loads_first_row conn1 fresh 7).2.2.2 twoRows [some "1", some "Ana"] [[some "2", none]]
      rfl rfl rfl).2.2.1 (by decide) 1 (by decide),
    ((find_loads_first_row conn1 fresh 7).2.2.2 twoRows [some "1", some "Ana"] [[some "2", none]]
      rfl rfl rfl).2.2.2.1 "EDAD" (by decide)⟩

end EloquentORM

/-! ## The constructor, set, get -/

namespace EloquentORM

theorem foldl_assign_empty (cols : List String) :
    ∀ (a : AttrMap) (k : String),
      (cols.foldl (fun a col => mapAssign a col "") a) k = if k ∈ cols then some "" else a k := by
  induction cols with
  | nil => intro a k; simp
  | cons c cs ih =>
    intro a k
    rw [List.foldl_cons, ih]
    by_cases hk : k ∈ cs
    · simp [hk]
    · by_cases hc : k = c
      · simp [hc, mapAssign]
      · simp [hk, hc, mapAssign]

/-- C12: the mapper constructed over `(T, C)` has table `T`, columns `C` in the same
order, an empty condition and raw query, and an attribute map whose keys are exactly
the names in `C`, each with the empty string as value. -/
theorem ctor_state (T : String) (C : List String) :
    (ctor T C).table = T ∧ (ctor T C).columns = C ∧ (ctor T C).condition = "" ∧
      (ctor T C).rawQuery = "" ∧
      ∀ k, (ctor T C).attributes k = if k ∈ C then some "" else none := by
  refine ⟨rfl, rfl, rfl, rfl, ?_⟩
  intro k
  show (C.foldl (fun a col => mapAssign a col "") mapEmpty) k = _
  rw [foldl_assign_empty]
  rfl

theorem get_snd (m : EloquentORM) (f : String) : (m.get f).2 = mapGet m.attributes f :=
  mapSubscript_snd m.attributes f

/-- C11: after `set(f, v)`, `get(f)` returns exactly `v`; a field that was not in
`columns` is appended at the end and occurs exactly once there, and a field that was
already in `columns` leaves the column list as it was. -/
theorem set_then_get (m : EloquentORM) (f v : String) :
    ((m.set f v).get f).2 = v ∧
      (f ∉ m.columns →
        (m.set f v).columns = m.columns ++ [f] ∧ (m.set f v).columns.count f = 1) ∧
      (f ∈ m.columns → (m.set f v).columns = m.columns) := by
  refine ⟨?_, ?_, ?_⟩
  · rw [get_snd]
    unfold set
    dsimp only
    split <;> simp [mapGet, mapAssign]
  · intro h
    have hc : (m.set f v).columns = m.columns ++ [f] := by
      unfold set
      simp [h]
    refine ⟨hc, ?_⟩
    rw [hc, List.count_append, List.count_eq_zero_of_not_mem h]
    simp
  · intro h
    unfold set
    simp [h]

theorem set_then_get_witness :
    ((fresh.set "TELEFONO" "555").columns = ["NOMBRE", "EDAD", "GENERO", "TELEFONO"] ∧
        (fresh.set "TELEFONO" "555").columns.count "TELEFONO" = 1) ∧
      (fresh.set "EDAD" "30").columns = ["NOMBRE", "EDAD", "GENERO"] :=
  ⟨(set_then_get fresh "TELEFONO" "555").2.1 (by decide),
    (set_then_get fresh "EDAD" "30").2.2 (by decide)⟩

/-- C13 (as stated, refuted): `get` on a field that is not a key of the attribute map
returns the empty string and adds the field as a key, so the mapper is not as before. -/
theorem get_inserts_missing_key :
    fresh.attributes "id" = none ∧ (fresh.get "id").2 = "" ∧
      (fresh.get "id").1.attributes "id" = some "" ∧ (fresh.get "id").1 ≠ fresh := by
  refine ⟨rfl, rfl, rfl, ?_⟩
  intro h
  have h1 : (fresh.get "id").1.attributes "id" = fresh.attributes "id" := by rw [h]
  revert h1
  decide

/-- C13 (amended): `get(f)` returns the current value of `f`, the empty string when
`f` is unset; it leaves table, columns, condition, raw query, every other key and the
value read under every field as they were; when `f` is a key the whole mapper is
unchanged, and when `f` is not a key the call adds it with the empty string. -/
theorem get_reads_value (m : EloquentORM) (f : String) :
    (m.get f).2 = mapGet m.attributes f ∧
      (m.get f).1.table = m.table ∧ (m.get f).1.columns = m.columns ∧
      (m.get f).1.condition = m.condition ∧ (m.get f).1.rawQuery = m.rawQuery ∧
      (∀ k, mapGet (m.get f).1.attributes k = mapGet m.attributes k) ∧
      (∀ k, k ≠ f → (m.get f).1.attributes k = m.attributes k) ∧
      (m.attributes f ≠ none → (m.get f).1 = m) ∧
      (m.attributes f = none → (m.get f).1.attributes f = some "") := by
  refine ⟨get_snd m f, rfl, rfl, rfl, rfl, fun k => mapSubscript_get _ _ _, ?_, ?_, ?_⟩
  · intro k hk
    show (mapSubscript m.attributes f).1 k = m.attributes k
    unfold mapSubscript
    cases h : m.attributes f <;> simp [mapAssign, hk]
  · intro h
    show { m with attributes := (mapSubscript m.attributes f).1 } = m
    rw [mapSubscript_present _ _ h]
  · intro h
    show (mapSubscript m.attributes f).1 f = some ""
    unfold mapSubscript
    simp [h, mapAssign]

theorem get_reads_value_witness :
    (personas.get "NOMBRE").1.attributes "EDAD" = personas.attributes "EDAD" ∧
      (personas.get "NOMBRE").1 = personas ∧
      (personas.get "id").1.attributes "id" = some "" :=
  ⟨(get_reads_value personas "NOMBRE").2.2.2.2.2.2.1 "EDAD" (by decide),
    (get_reads_value personas "NOMBRE").2.2.2.2.2.2.2.1 (by decide),
    (get_reads_value personas "id").2.2.2.2.2.2.2.2 rfl⟩

end EloquentORM

/-! ## What the calls keep -/

namespace EloquentORM

theorem grows_refl (m : EloquentORM) : Grows m m :=
  ⟨rfl, rfl, rfl, rfl, fun _ h => h⟩

theorem mapSubscript_keys (a : AttrMap) (x k : String) (h : a k ≠ none) :
    (mapSubscript a x).1 k ≠ none := by
  unfold mapSubscript
  cases hx : a x with
  | some v => exact h
  | none =>
    by_cases hk : k = x
    · simp [mapAssign, hk]
    · simp [mapAssign, hk, h]

theorem createValues_keys (size : Nat) (rest : List String) :
    ∀ (i : Nat) (a : AttrMap) (ss : String) (k : String),
      a k ≠ none → (createValues size i rest (a, ss)).1 k ≠ none := by
  induction rest with
  | nil => intro i a ss k h; rw [createValues_nil]; exact h
  | cons col rest ih =>
    intro i a ss k h
    rw [createValues_cons]
    exact ih _ _ _ k (mapSubscript_keys a col k h)

theorem createValues_fixed (size : Nat) (rest : List String) :
    ∀ (i : Nat) (a : AttrMap) (ss : String),
      (∀ c, c ∈ rest → a c ≠ none) → (createValues size i rest (a, ss)).1 = a := by
  induction rest with
  | nil => intro i a ss _; rw [createValues_nil]
  | cons col rest ih =>
    intro i a ss h
    rw [createValues_cons]
    have hcol : (mapSubscript a col).1 = a :=
      mapSubscript_present a col (h col (List.mem_cons_self _ _))
    dsimp only
    rw [hcol]
    exact ih _ a _ (fun c hc => h c (List.mem_cons_of_mem _ hc))

theorem createValues_get (size : Nat) (rest : List String) :
    ∀ (i : Nat) (a : AttrMap) (ss : String) (k : String),
      mapGet (createValues size i rest (a, ss)).1 k = mapGet a k := by
  induction rest with
  | nil => intro i a ss k; rw [createValues_nil]
  | cons col rest ih =>
    intro i a ss k
    rw [createValues_cons, ih, mapSubscript_get]

theorem updateLoop_keys (cols : List String) :
    ∀ (a : AttrMap) (ss : String) (first : Bool) (k : String),
      a k ≠ none → (updateLoop cols (a, ss, first)).1 k ≠ none := by
  induction cols with
  | nil => intro a ss first k h; rw [updateLoop_nil]; exact h
  | cons col rest ih =>
    intro a ss first k h
    by_cases hc : col = "id"
    · subst hc; rw [updateLoop_cons_id]; exact ih a ss first k h
    · rw [updateLoop_cons_other _ _ _ _ _ hc]
      exact ih _ _ _ k (mapSubscript_keys a col k h)

theorem updateLoop_fixed (cols : List String) :
    ∀ (a : AttrMap) (ss : String) (first : Bool),
      (∀ c, c ∈ cols → a c ≠ none) → (updateLoop cols (a, ss, first)).1 = a := by
  induction cols with
  | nil => intro a ss first _; rw [updateLoop_nil]
  | cons col rest ih =>
    intro a ss first h
    have hrest : ∀ c, c ∈ rest → a c ≠ none := fun c hc => h c (List.mem_cons_of_mem _ hc)
    by_cases hc : col = "id"
    · subst hc; rw [updateLoop_cons_id]; exact ih a ss first hrest
    · rw [updateLoop_cons_other _ _ _ _ _ hc,
        mapSubscript_present a col (h col (List.mem_cons_self _ _))]
      exact ih a _ _ hrest

theorem decodeRow_keys (fields : List String) :
    ∀ (row : List (Option String)) (record : AttrMap) (k : String),
      record k ≠ none → decodeRow fields row record k ≠ none := by
  induction fields with
  | nil => intro row record k h; rw [decodeRow_nil]; exact h
  | cons f fs ih =>
    intro row record k h
    cases row with
    | nil => simpa [decodeRow] using h
    | cons c cs =>
      rw [decodeRow_cons]
      apply ih
      by_cases hk : k = f
      · simp [mapAssign, hk]
      · simp [mapAssign, hk, h]

end EloquentORM

namespace EloquentORM

theorem create_mapper (conn : MYSQL) (m : EloquentORM) :
    (create conn m).2.1 =
      { m with attributes :=
          (createValues m.columns.length 0 m.columns
            (m.attributes,
              createColumns m.columns.length 0 m.columns ("INSERT INTO " ++ m.table ++ " (")
                ++ ") VALUES (")).1 } := by
  rw [create_unfold]

theorem create_grows (conn : MYSQL) (m : EloquentORM) : Grows m (create conn m).2.1 := by
  rw [create_mapper]
  exact ⟨rfl, rfl, rfl, rfl, fun k h => createValues_keys _ _ _ _ _ k h⟩

theorem create_fixed (conn : MYSQL) (m : EloquentORM) (h : AllKeys m) :
    (create conn m).2.1 = m := by
  rw [create_mapper, createValues_fixed _ _ _ _ _ h]

theorem create_get (conn : MYSQL) (m : EloquentORM) (k : String) :
    mapGet (create conn m).2.1.attributes k = mapGet m.attributes k := by
  rw [create_mapper]
  exact createValues_get _ _ _ _ _ k

theorem present_of_mapGet_ne (a : AttrMap) (k : String) (h : mapGet a k ≠ "") : a k ≠ none := by
  intro hk
  apply h
  simp [mapGet, hk]

theorem update_mapper (conn : MYSQL) (m : EloquentORM) (h : mapGet m.attributes "id" ≠ "") :
    (update conn m).2.1 =
      { m with attributes :=
          (updateLoop m.columns (m.attributes, "UPDATE " ++ m.table ++ " SET ", true)).1 } := by
  have hid : (updateLoop m.columns (m.attributes, "UPDATE " ++ m.table ++ " SET ", true)).1 "id"
      ≠ none := updateLoop_keys _ _ _ _ _ (present_of_mapGet_ne _ _ h)
  unfold update
  simp only [idMissing_snd, idMissing_fst, h, decide_False, mysql_query,
    mapSubscript_present _ _ hid, Bool.false_eq_true, if_false]
  split <;> rfl

theorem update_grows (conn : MYSQL) (m : EloquentORM) : Grows m (update conn m).2.1 := by
  by_cases h : mapGet m.attributes "id" = ""
  · rw [update_unbound conn m h]; exact grows_refl m
  · rw [update_mapper conn m h]
    exact ⟨rfl, rfl, rfl, rfl, fun k hk => updateLoop_keys _ _ _ _ k hk⟩

theorem update_fixed (conn : MYSQL) (m : EloquentORM) (h : AllKeys m) :
    (update conn m).2.1 = m := by
  by_cases hid : mapGet m.attributes "id" = ""
  · rw [update_unbound conn m hid]
  · rw [update_mapper conn m hid, updateLoop_fixed _ _ _ _ h]

theorem update_get (conn : MYSQL) (m : EloquentORM) (k : String) :
    mapGet (update conn m).2.1.attributes k = mapGet m.attributes k := by
  by_cases hid : mapGet m.attributes "id" = ""
  · rw [update_unbound conn m hid]
  · rw [update_mapper conn m hid]
    exact updateLoop_get _ _ _ _ k

theorem remove_mapper (conn : MYSQL) (m : EloquentORM) : (remove conn m).2.1 = m := by
  by_cases h : mapGet m.attributes "id" = ""
  · rw [remove_unbound conn m h]
  · unfold remove
    simp only [idMissing_snd, idMissing_fst, h, decide_False, mysql_query,
      mapSubscript_present _ _ (present_of_mapGet_ne _ _ h), Bool.false_eq_true, if_false]
    split <;> rfl

theorem save_eq (conn : MYSQL) (m : EloquentORM) :
    save conn m = if mapGet m.attributes "id" = "" then create conn m else update conn m := by
  unfold save
  simp only [idMissing_fst, idMissing_snd]
  by_cases h : mapGet m.attributes "id" = "" <;> simp [h]

theorem save_grows (conn : MYSQL) (m : EloquentORM) : Grows m (save conn m).2.1 := by
  rw [save_eq]
  split
  · exact create_grows conn m
  · exact update_grows conn m

theorem find_grows (conn : MYSQL) (m : EloquentORM) (id : Int) :
    Grows m (find conn m id).2.1 := by
  rw [find_snd]
  generalize (execute conn _).2 = e
  cases e with
  | none => exact grows_refl m
  | some res =>
    dsimp only
    cases res.rows with
    | nil => exact grows_refl m
    | cons row rest => exact ⟨rfl, rfl, rfl, rfl, fun k h => decodeRow_keys _ _ _ k h⟩

theorem get_grows (m : EloquentORM) (f : String) : Grows m (m.get f).1 :=
  ⟨rfl, rfl, rfl, rfl, fun k h => mapSubscript_keys _ _ k h⟩

theorem where_columns (m : EloquentORM) (f v : String) :
    (m.where_ f v).2.columns = m.columns ∧ (m.where_ f v).2.attributes = m.attributes := by
  unfold where_
  dsimp only
  split <;> exact ⟨rfl, rfl⟩

end EloquentORM

/-! ## Invariants along call sequences -/

namespace EloquentORM

theorem set_columns_nodup (m : EloquentORM) (f v : String) (h : m.columns.Nodup) :
    (m.set f v).columns.Nodup := by
  unfold set
  dsimp only
  split
  · exact h
  · rename_i hf
    show (m.columns ++ [f]).Nodup
    rw [List.nodup_append]
    refine ⟨h, List.nodup_singleton f, ?_⟩
    intro a ha hb
    rw [List.mem_singleton] at hb
    exact hf (hb ▸ ha)

theorem set_allKeys (m : EloquentORM) (f v : String) (h : AllKeys m) : AllKeys (m.set f v) := by
  have hattr : (m.set f v).attributes = mapAssign m.attributes f v := by
    unfold set
    dsimp only
    split <;> rfl
  have hcols : ∀ c, c ∈ (m.set f v).columns → c ∈ m.columns ∨ c = f := by
    intro c
    unfold set
    dsimp only
    split
    · exact fun hc => Or.inl hc
    · intro hc
      have hc2 : c ∈ m.columns ++ [f] := hc
      rw [List.mem_append, List.mem_singleton] at hc2
      exact hc2
  intro c hc
  rw [hattr]
  by_cases hcf : c = f
  · simp [mapAssign, hcf]
  · rcases hcols c hc with h1 | h1
    · simpa [mapAssign, hcf] using h c h1
    · exact absurd h1 hcf

theorem allKeys_of_grows (m m2 : EloquentORM) (h : AllKeys m) (g : Grows m m2) : AllKeys m2 := by
  intro c hc
  rw [g.2.1] at hc
  exact g.2.2.2.2 c (h c hc)

theorem step_columns_nodup (s : MYSQL × EloquentORM) (c : Call) (h : s.2.columns.Nodup) :
    (step s c).2.columns.Nodup := by
  cases c with
  | set f v => exact set_columns_nodup s.2 f v h
  | get f => exact h
  | find id => show (find s.1 s.2 id).2.1.columns.Nodup; rw [(find_grows s.1 s.2 id).2.1]; exact h
  | save => show (save s.1 s.2).2.1.columns.Nodup; rw [(save_grows s.1 s.2).2.1]; exact h
  | create => show (create s.1 s.2).2.1.columns.Nodup; rw [(create_grows s.1 s.2).2.1]; exact h
  | update => show (update s.1 s.2).2.1.columns.Nodup; rw [(update_grows s.1 s.2).2.1]; exact h
  | remove => show (remove s.1 s.2).2.1.columns.Nodup; rw [remove_mapper]; exact h
  | where_ f v => show (s.2.where_ f v).2.columns.Nodup; rw [(where_columns s.2 f v).1]; exact h
  | raw q => exact h

theorem step_allKeys (s : MYSQL × EloquentORM) (c : Call) (h : AllKeys s.2) :
    AllKeys (step s c).2 := by
  cases c with
  | set f v => exact set_allKeys s.2 f v h
  | get f => exact allKeys_of_grows _ _ h (get_grows s.2 f)
  | find id => exact allKeys_of_grows _ _ h (find_grows s.1 s.2 id)
  | save => exact allKeys_of_grows _ _ h (save_grows s.1 s.2)
  | create => exact allKeys_of_grows _ _ h (create_grows s.1 s.2)
  | update => exact allKeys_of_grows _ _ h (update_grows s.1 s.2)
  | remove => show AllKeys (remove s.1 s.2).2.1; rw [remove_mapper]; exact h
  | where_ f v =>
    intro c hc
    have hw := where_columns s.2 f v
    show (s.2.where_ f v).2.attributes c ≠ none
    rw [hw.2]
    exact h c (hw.1 ▸ hc)
  | raw q => exact h

theorem run_cons (s : MYSQL × EloquentORM) (c : Call) (calls : List Call) :
    run s (c :: calls) = run (step s c) calls := rfl

theorem ctor_allKeys (T : String) (cols : List String) : AllKeys (ctor T cols) := by
  intro c hc
  have hc2 : c ∈ cols := hc
  show (cols.foldl (fun a col => mapAssign a col "") mapEmpty) c ≠ none
  rw [foldl_assign_empty]
  simp [hc2]

/-- C14 (as stated, refuted): the constructor takes the column list as given, so a list
that repeats a name yields an instance whose `columns` repeats it, before and after
further calls. -/
theorem ctor_keeps_duplicate_columns :
    ¬ (run (conn0, ctor "t" ["a", "a"]) []).2.columns.Nodup ∧
      (run (conn0, ctor "t" ["a", "a"]) [Call.set "a" "1", Call.save]).2.columns = ["a", "a"] := by
  constructor
  · show ¬ (["a", "a"] : List String).Nodup
    decide
  · decide

/-- C14 (amended): when the column list passed to the constructor has no name twice,
the `columns` list of the instance has no name twice after every finite sequence of
`set`, `get`, `find`, `save`, `create`, `update`, `remove`, `where` and `raw` calls. -/
theorem columns_nodup_preserved (T : String) (cols : List String) (conn : MYSQL)
    (calls : List Call) (h : cols.Nodup) :
    (run (conn, ctor T cols) calls).2.columns.Nodup := by
  have key : ∀ (calls : List Call) (s : MYSQL × EloquentORM),
      s.2.columns.Nodup → (run s calls).2.columns.Nodup := by
    intro calls
    induction calls with
    | nil => intro s hs; exact hs
    | cons c rest ih => intro s hs; rw [run_cons]; exact ih _ (step_columns_nodup s c hs)
  exact key calls _ h

theorem columns_nodup_preserved_witness :
    (run (conn0, ctor "personas" ["NOMBRE", "EDAD"])
      [Call.set "TELEFONO" "555", Call.set "EDAD" "30", Call.save, Call.find 1]).2.columns.Nodup :=
  columns_nodup_preserved "personas" ["NOMBRE", "EDAD"] conn0
    [Call.set "TELEFONO" "555", Call.set "EDAD" "30", Call.save, Call.find 1] (by decide)

/-- C19: every freshly constructed mapper has each of its columns as a key of the
attribute map; every call keeps that property, so it holds after every sequence of
calls; and on such a state `create()` and `update()` leave the mapper as it was. -/
theorem allKeys_invariant (T : String) (cols : List String) (conn : MYSQL)
    (calls : List Call) :
    AllKeys (ctor T cols) ∧
      (∀ (s : MYSQL × EloquentORM) (c : Call), AllKeys s.2 → AllKeys (step s c).2) ∧
      AllKeys (run (conn, ctor T cols) calls).2 ∧
      ∀ (conn2 : MYSQL),
        (create conn2 (run (conn, ctor T cols) calls).2).2.1 = (run (conn, ctor T cols) calls).2 ∧
        (update conn2 (run (conn, ctor T cols) calls).2).2.1 = (run (conn, ctor T cols) calls).2 := by
  have key : ∀ (calls : List Call) (s : MYSQL × EloquentORM),
      AllKeys s.2 → AllKeys (run s calls).2 := by
    intro calls
    induction calls with
    | nil => intro s hs; exact hs
    | cons c rest ih => intro s hs; rw [run_cons]; exact ih _ (step_allKeys s c hs)
  have hrun : AllKeys (run (conn, ctor T cols) calls).2 := key calls _ (ctor_allKeys T cols)
  exact ⟨ctor_allKeys T cols, step_allKeys, hrun,
    fun conn2 => ⟨create_fixed conn2 _ hrun, update_fixed conn2 _ hrun⟩⟩

theorem allKeys_invariant_witness :
    AllKeys (step (conn0, fresh) (Call.set "TELEFONO" "555")).2 :=
  (allKeys_invariant "personas" ["NOMBRE", "EDAD", "GENERO"] conn0 []).2.1
    (conn0, fresh) (Call.set "TELEFONO" "555")
    (allKeys_invariant "personas" ["NOMBRE", "EDAD", "GENERO"] conn0 []).1

end EloquentORM

/-! ## The conceptual state machine: create, remove, save -/

namespace EloquentORM

theorem unbound_iff (m : EloquentORM) : Unbound m ↔ mapGet m.attributes "id" = "" :=
  (mapGet_eq_empty_iff m.attributes "id").symm

/-- C15 (as stated, refuted): on the `personas` scenario `create()` returns true and
the instance still has no `id`, so the following `save()` sends a second INSERT. -/
theorem create_does_not_bind :
    Unbound personas ∧ (create conn0 personas).2.2 = true ∧
      (create conn0 personas).2.1.attributes "id" = none ∧
      (save (create conn0 personas).1 (create conn0 personas).2.1).1.sent =
        ["INSERT INTO personas (NOMBRE, EDAD, GENERO) VALUES ('Ana', '30', '')",
          "INSERT INTO personas (NOMBRE, EDAD, GENERO) VALUES ('Ana', '30', '')"] := by
  refine ⟨Or.inl rfl, by decide, rfl, by decide⟩

/-- C15 (amended): `create()` never assigns `attributes["id"]`: the value read under
`id` is the same after the call, so an Unbound instance is still Unbound after
`create()`, whatever it returned, and a following `save()` dispatches to `create()`. -/
theorem create_keeps_id (conn : MYSQL) (m : EloquentORM) :
    mapGet (create conn m).2.1.attributes "id" = mapGet m.attributes "id" ∧
      (Unbound m →
        Unbound (create conn m).2.1 ∧
        ∀ conn2, save conn2 (create conn m).2.1 = create conn2 (create conn m).2.1) := by
  refine ⟨create_get conn m "id", fun h => ?_⟩
  have h1 : mapGet (create conn m).2.1.attributes "id" = "" := by
    rw [create_get]; exact (unbound_iff m).mp h
  refine ⟨(unbound_iff _).mpr h1, fun conn2 => ?_⟩
  rw [save_eq, if_pos h1]

theorem create_keeps_id_witness :
    Unbound (create conn0 personas).2.1 ∧
      ∀ conn2, save conn2 (create conn0 personas).2.1 = create conn2 (create conn0 personas).2.1 :=
  (create_keeps_id conn0 personas).2 (Or.inl rfl)

/-- C16 (as stated, refuted): on a Bound instance `remove()` returns true and the
instance still carries its id, so a second `remove()` sends the DELETE again. -/
theorem remove_does_not_unbind :
    ¬ Unbound bound ∧ (remove conn0 bound).2.2 = true ∧
      (remove conn0 bound).2.1.attributes "id" = some "7" ∧
      ¬ Unbound (remove conn0 bound).2.1 ∧
      (remove (remove conn0 bound).1 (remove conn0 bound).2.1).2.2 = true ∧
      (remove (remove conn0 bound).1 (remove conn0 bound).2.1).1.sent =
        ["DELETE FROM personas WHERE id = 7", "DELETE FROM personas WHERE id = 7"] := by
  have hb : ¬ Unbound bound := by
    intro h
    have := (unbound_iff bound).mp h
    revert this
    decide
  refine ⟨hb, by decide, rfl, ?_, by decide, by decide⟩
  rw [remove_mapper]
  exact hb

/-- C16 (amended): `remove()` leaves the mapper as it was, `attributes["id"]`
included: a Bound instance is still Bound after `remove()`, whatever it returned, so a
second `remove()` passes the precondition and sends the DELETE again (the DELETE text
cut at its first NUL character, as the first call did), and a following `save()`
dispatches to `update()`. -/
theorem remove_keeps_id (conn : MYSQL) (m : EloquentORM) :
    (remove conn m).2.1 = m ∧
      (¬ Unbound m →
        ¬ Unbound (remove conn m).2.1 ∧
        ∀ conn2,
          (remove conn2 (remove conn m).2.1).1.sent =
              conn2.sent ++
                [c_str ("DELETE FROM " ++ m.table ++ " WHERE id = " ++ mapGet m.attributes "id")] ∧
            remove conn2 (remove conn m).2.1 = remove conn2 m ∧
            save conn2 (remove conn m).2.1 = update conn2 (remove conn m).2.1) := by
  refine ⟨remove_mapper conn m, fun h => ?_⟩
  rw [remove_mapper]
  have h1 : mapGet m.attributes "id" ≠ "" := fun e => h ((unbound_iff m).mpr e)
  refine ⟨h, fun conn2 => ⟨?_, rfl, ?_⟩⟩
  · rw [(remove_bound conn2 m h1).1]; rfl
  · rw [save_eq, if_neg h1]

theorem remove_keeps_id_witness :
    ¬ Unbound (remove conn0 bound).2.1 ∧
      ∀ conn2,
        (remove conn2 (remove conn0 bound).2.1).1.sent =
            conn2.sent ++ ["DELETE FROM personas WHERE id = 7"] ∧
          remove conn2 (remove conn0 bound).2.1 = remove conn2 bound ∧
          save conn2 (remove conn0 bound).2.1 = update conn2 (remove conn0 bound).2.1 :=
  (remove_keeps_id conn0 bound).2
    (fun h => absurd ((unbound_iff bound).mp h) (by decide))

theorem c_str_insertStatement (m : EloquentORM) :
    ∃ rest, c_str (insertStatement m) = "INSERT INTO " ++ rest := by
  unfold insertStatement
  simp only [String.append_assoc]
  exact ⟨_, c_str_append _ _ (by decide)⟩

theorem c_str_updateStatement (m : EloquentORM) :
    ∃ rest, c_str (updateStatement m) = "UPDATE " ++ rest := by
  unfold updateStatement
  simp only [String.append_assoc]
  exact ⟨_, c_str_append _ _ (by decide)⟩

/-- C20: `save()` always sends exactly one statement and returns true exactly when
the server accepts that statement: the statement `create()` builds, which begins with
`INSERT INTO`, when `id` is absent or empty, and the statement `update()` builds, which
begins with `UPDATE`, otherwise; the branch of `update()` that sends nothing is never
taken. -/
theorem save_sends_one_statement (conn : MYSQL) (m : EloquentORM) :
    (∃ stmt, (save conn m).1.sent = conn.sent ++ [stmt] ∧
        (save conn m).2.2 = !(conn.server conn.sent stmt).failed) ∧
      (Unbound m →
        ∃ rest, (save conn m).1.sent = conn.sent ++ ["INSERT INTO " ++ rest] ∧
          "INSERT INTO " ++ rest = c_str (insertStatement m) ∧
          (save conn m).2.2 = !(conn.server conn.sent ("INSERT INTO " ++ rest)).failed) ∧
      (¬ Unbound m →
        ∃ rest, (save conn m).1.sent = conn.sent ++ ["UPDATE " ++ rest] ∧
          "UPDATE " ++ rest = c_str (updateStatement m) ∧
          (save conn m).2.2 = !(conn.server conn.sent ("UPDATE " ++ rest)).failed) := by
  have hu : Unbound m →
      (save conn m).1.sent = conn.sent ++ [c_str (insertStatement m)] ∧
      (save conn m).2.2 = !(conn.server conn.sent (c_str (insertStatement m))).failed := by
    intro h
    rw [save_eq, if_pos ((unbound_iff m).mp h), create_unfold]
    exact ⟨rfl, rfl⟩
  have hb : ¬ Unbound m →
      (save conn m).1.sent = conn.sent ++ [c_str (updateStatement m)] ∧
      (save conn m).2.2 = !(conn.server conn.sent (c_str (updateStatement m))).failed := by
    intro h
    have h1 : mapGet m.attributes "id" ≠ "" := fun e => h ((unbound_iff m).mpr e)
    rw [save_eq, if_neg h1, (update_bound conn m h1).1, (update_bound conn m h1).2]
    exact ⟨rfl, rfl⟩
  refine ⟨?_, ?_, ?_⟩
  · by_cases h : Unbound m
    · exact ⟨_, hu h⟩
    · exact ⟨_, hb h⟩
  · intro h
    obtain ⟨rest, hr⟩ := c_str_insertStatement m
    refine ⟨rest, ?_, hr.symm, ?_⟩
    · rw [← hr]; exact (hu h).1
    · rw [← hr]; exact (hu h).2
  · intro h
    obtain ⟨rest, hr⟩ := c_str_updateStatement m
    refine ⟨rest, ?_, hr.symm, ?_⟩
    · rw [← hr]; exact (hb h).1
    · rw [← hr]; exact (hb h).2

theorem save_sends_one_statement_witness :
    (∃ rest, (save conn0 personas).1.sent = conn0.sent ++ ["INSERT INTO " ++ rest] ∧
        "INSERT INTO " ++ rest = c_str (insertStatement personas) ∧
        (save conn0 personas).2.2 = !(conn0.server conn0.sent ("INSERT INTO " ++ rest)).failed) ∧
      (∃ rest, (save conn0 bound).1.sent = conn0.sent ++ ["UPDATE " ++ rest] ∧
        "UPDATE " ++ rest = c_str (updateStatement bound) ∧
        (save conn0 bound).2.2 = !(conn0.server conn0.sent ("UPDATE " ++ rest)).failed) :=
  ⟨(save_sends_one_statement conn0 personas).2.1 (Or.inl rfl),
    (save_sends_one_statement conn0 bound).2.2
      (fun h => absurd ((unbound_iff bound).mp h) (by decide))⟩

end EloquentORM

/-! ## find: failure and the round trip -/

namespace EloquentORM

theorem find_no_row (conn : MYSQL) (m : EloquentORM) (id : Int)
    (h : (execute conn
        ("SELECT * FROM " ++ m.table ++ " WHERE id = " ++ to_string id ++ " LIMIT 1")).2 = none ∨
      ∃ res, (execute conn
        ("SELECT * FROM " ++ m.table ++ " WHERE id = " ++ to_string id ++ " LIMIT 1")).2 = some res
          ∧ res.rows = []) :
    (find conn m id).2 = (m, false) := by
  rw [find_snd]
  rcases h with h | ⟨res, h, hrows⟩
  · rw [h]
  · rw [h]
    dsimp only
    rw [hrows]

/-- C18: when the statement fails, when no result set comes back, or when the result
set has no row, `find(id)` returns false and the mapper is exactly as before; a failed
execution and an empty result give the same mapper, the same result and the same
statement sent. -/
theorem find_atomic_on_failure (conn : MYSQL) (m : EloquentORM) (id : Int) :
    (conn.server conn.sent
          (c_str ("SELECT * FROM " ++ m.table ++ " WHERE id = " ++ toString id ++ " LIMIT 1"))
        = Reply.error → (find conn m id).2 = (m, false)) ∧
      (conn.server conn.sent
          (c_str ("SELECT * FROM " ++ m.table ++ " WHERE id = " ++ toString id ++ " LIMIT 1"))
        = Reply.ok none → (find conn m id).2 = (m, false)) ∧
      (∀ res, conn.server conn.sent
          (c_str ("SELECT * FROM " ++ m.table ++ " WHERE id = " ++ toString id ++ " LIMIT 1"))
        = Reply.ok (some res) → res.rows = [] → (find conn m id).2 = (m, false)) ∧
      (∀ (conn2 : MYSQL) (res : MYSQL_RES), conn2.sent = conn.sent →
        conn.server conn.sent
          (c_str ("SELECT * FROM " ++ m.table ++ " WHERE id = " ++ toString id ++ " LIMIT 1"))
          = Reply.error →
        conn2.server conn2.sent
          (c_str ("SELECT * FROM " ++ m.table ++ " WHERE id = " ++ toString id ++ " LIMIT 1"))
          = Reply.ok (some res) →
        res.rows = [] →
          (find conn m id).2 = (find conn2 m id).2 ∧
          (find conn m id).1.sent = (find conn2 m id).1.sent) := by
  have he : conn.server conn.sent
      (c_str ("SELECT * FROM " ++ m.table ++ " WHERE id = " ++ to_string id ++ " LIMIT 1"))
        = Reply.error → (find conn m id).2 = (m, false) := by
    intro h
    apply find_no_row
    left
    rw [execute_snd, h]
    rfl
  have hz : ∀ (c : MYSQL) (res : MYSQL_RES), c.server c.sent
      (c_str ("SELECT * FROM " ++ m.table ++ " WHERE id = " ++ to_string id ++ " LIMIT 1"))
        = Reply.ok (some res) → res.rows = [] → (find c m id).2 = (m, false) := by
    intro c res h hrows
    apply find_no_row
    right
    refine ⟨res, ?_, hrows⟩
    rw [execute_snd, h]
    rfl
  refine ⟨he, ?_, hz conn, ?_⟩
  · intro h
    apply find_no_row
    left
    have h2 : conn.server conn.sent
        (c_str ("SELECT * FROM " ++ m.table ++ " WHERE id = " ++ to_string id ++ " LIMIT 1"))
          = Reply.ok none := h
    rw [execute_snd, h2]
    rfl
  · intro conn2 res hsent h1 h2 hrows
    rw [he h1, hz conn2 res h2 hrows, find_fst, find_fst, hsent]
    exact ⟨rfl, rfl⟩

theorem find_atomic_on_failure_witness :
    (find connReject personas 7).2 = (personas, false) ∧
      (find conn0 personas 7).2 = (personas, false) ∧
      (find connNoRows personas 7).2 = (personas, false) ∧
      ((find connReject personas 7).2 = (find connNoRows personas 7).2 ∧
        (find connReject personas 7).1.sent = (find connNoRows personas 7).1.sent) :=
  ⟨(find_atomic_on_failure connReject personas 7).1 rfl,
    (find_atomic_on_failure conn0 personas 7).2.1 rfl,
    (find_atomic_on_failure connNoRows personas 7).2.2.1 noRows rfl rfl,
    (find_atomic_on_failure connReject personas 7).2.2.2 connNoRows noRows rfl rfl rfl rfl⟩

end EloquentORM

namespace EloquentORM

end EloquentORM
